/-
Verification development for the mesh-to-points core: the height-map /
sparse-tool / toolpath pipeline of src/src/wasm/toolpath-generator.c and the
mesh sampler of src/src/wasm/mesh-converter-lib.c.

Shallow embedding conventions:
  * C `float` values are modelled as exact rationals (ℚ).
  * The NaN empty-cell sentinel (EMPTY_CELL) is modelled as `Option ℚ`:
    `none` stands for NaN, `some z` for a populated cell.
  * The FLT_MAX accumulator sentinel of the min-clearance loops is modelled
    as an `Option ℚ` accumulator (`none` = nothing accumulated yet).
  * C `int` values are ℤ (or ℕ where the C value is a size/index that the
    code keeps non-negative).
  * Flat arrays are Lean lists; the dense `z_grid` buffer is a function
    `ℕ → Option ℚ` written by successive functional updates, exactly in the
    order the C loops write it.
-/
import Mathlib

set_option maxHeartbeats 2000000
set_option maxRecDepth 4000
set_option allowUnsafeReducibility true

attribute [local semireducible] Rat.add Rat.mul Rat.sub Rat.div Rat.neg Rat.inv Rat.ofScientific

/-- Rounding half away from zero: the behaviour of C `roundf`. -/
def roundf (q : ℚ) : ℤ := if q < 0 then -((-q + 1/2).floor) else (q + 1/2).floor

/-- Truncation toward zero: the behaviour of a C cast from float to int. -/
def truncQ (q : ℚ) : ℤ := if q < 0 then -((-q).floor) else q.floor

/-- Batteries' computable `Rat.floor` agrees with Mathlib's `Int.floor`. -/
theorem ratFloor_eq_floor (q : ℚ) : q.floor = ⌊q⌋ := by
  have h1 : ((q.floor : ℤ) : ℚ) ≤ q := Rat.le_floor.mp le_rfl
  have h3 : q.floor ≤ ⌊q⌋ := Int.le_floor.mpr h1
  have h2 : ⌊q⌋ ≤ q.floor := Rat.le_floor.mpr (Int.floor_le q)
  omega

theorem roundf_nonneg {q : ℚ} (h : 0 ≤ q) : 0 ≤ roundf q := by
  have hq : ¬ q < 0 := not_lt.mpr h
  unfold roundf
  rw [if_neg hq, ratFloor_eq_floor]
  have : (0:ℚ) ≤ q + 1/2 := by linarith
  exact Int.floor_nonneg.mpr this

/-- Index clamp into `[0, w)`: the sequential `if (i < 0) i = 0; if (i >= w)
i = w - 1;` pattern of the C sources. -/
def clampIdx (i : ℤ) (w : ℕ) : ℕ :=
  if i < 0 then 0 else if (w:ℤ) ≤ i then w - 1 else i.toNat

theorem clampIdx_lt (i : ℤ) {w : ℕ} (hw : 0 < w) : clampIdx i w < w := by
  unfold clampIdx
  split
  · exact hw
  · split
    · omega
    · rename_i h1 h2
      omega

/-- Folding a min over a list through a projection: lower bound for the seed. -/
theorem foldl_min_le_init {α : Type} (f : α → ℚ) (l : List α) (a : ℚ) :
    l.foldl (fun b q => min b (f q)) a ≤ a := by
  induction l generalizing a with
  | nil => exact le_rfl
  | cons p r ih =>
      calc r.foldl (fun b q => min b (f q)) (min a (f p)) ≤ min a (f p) := ih _
        _ ≤ a := min_le_left _ _

/-- Folding a min over a list through a projection: lower bound for members. -/
theorem foldl_min_le_mem {α : Type} (f : α → ℚ) (l : List α) (a : ℚ) {x : α}
    (hx : x ∈ l) : l.foldl (fun b q => min b (f q)) a ≤ f x := by
  induction l generalizing a with
  | nil => cases hx
  | cons p r ih =>
      rcases List.mem_cons.mp hx with h | h
      · subst h
        calc r.foldl (fun b q => min b (f q)) (min a (f x)) ≤ min a (f x) :=
              foldl_min_le_init f r _
          _ ≤ f x := min_le_right _ _
      · exact ih _ h

/-- The folded min is the seed or a projected member. -/
theorem foldl_min_attained {α : Type} (f : α → ℚ) (l : List α) (a : ℚ) :
    l.foldl (fun b q => min b (f q)) a = a ∨
      ∃ x ∈ l, l.foldl (fun b q => min b (f q)) a = f x := by
  induction l generalizing a with
  | nil => exact Or.inl rfl
  | cons p r ih =>
      rcases ih (min a (f p)) with h | ⟨x, hx, hfx⟩
      · by_cases hap : a ≤ f p
        · left
          simpa [min_eq_left hap] using h
        · right
          refine ⟨p, List.mem_cons_self p r, ?_⟩
          simpa [min_eq_right (le_of_not_le hap)] using h
      · exact Or.inr ⟨x, List.mem_cons_of_mem _ hx, hfx⟩

/-- Folding a max over a list through a projection: upper bound for the seed. -/
theorem foldl_max_ge_init {α : Type} (f : α → ℚ) (l : List α) (a : ℚ) :
    a ≤ l.foldl (fun b q => max b (f q)) a := by
  induction l generalizing a with
  | nil => exact le_rfl
  | cons p r ih =>
      calc a ≤ max a (f p) := le_max_left _ _
        _ ≤ r.foldl (fun b q => max b (f q)) (max a (f p)) := ih _

/-- Folding a max over a list through a projection: upper bound for members. -/
theorem foldl_max_ge_mem {α : Type} (f : α → ℚ) (l : List α) (a : ℚ) {x : α}
    (hx : x ∈ l) : f x ≤ l.foldl (fun b q => max b (f q)) a := by
  induction l generalizing a with
  | nil => cases hx
  | cons p r ih =>
      rcases List.mem_cons.mp hx with h | h
      · subst h
        calc f x ≤ max a (f x) := le_max_right _ _
          _ ≤ r.foldl (fun b q => max b (f q)) (max a (f x)) := foldl_max_ge_init f r _
      · exact ih _ h

/-- The folded max is the seed or a projected member. -/
theorem foldl_max_attained {α : Type} (f : α → ℚ) (l : List α) (a : ℚ) :
    l.foldl (fun b q => max b (f q)) a = a ∨
      ∃ x ∈ l, l.foldl (fun b q => max b (f q)) a = f x := by
  induction l generalizing a with
  | nil => exact Or.inl rfl
  | cons p r ih =>
      rcases ih (max a (f p)) with h | ⟨x, hx, hfx⟩
      · by_cases hap : f p ≤ a
        · left
          simpa [max_eq_left hap] using h
        · right
          refine ⟨p, List.mem_cons_self p r, ?_⟩
          simpa [max_eq_right (le_of_not_le hap)] using h
      · exact Or.inr ⟨x, List.mem_cons_of_mem _ hx, hfx⟩

/-- Min of a projection over a list, seeded from the head: models C loops that
start from a large sentinel and fold `if (v < acc) acc = v;` over a non-empty
scan (the sentinel never survives a non-empty scan). `0` for `[]` (unused). -/
def loBy {α : Type} (f : α → ℚ) : List α → ℚ
  | [] => 0
  | p :: r => r.foldl (fun b q => min b (f q)) (f p)

/-- Max counterpart of `loBy`. -/
def hiBy {α : Type} (f : α → ℚ) : List α → ℚ
  | [] => 0
  | p :: r => r.foldl (fun b q => max b (f q)) (f p)

theorem loBy_le_mem {α : Type} (f : α → ℚ) {l : List α} {x : α} (hx : x ∈ l) :
    loBy f l ≤ f x := by
  cases l with
  | nil => cases hx
  | cons p r =>
      rcases List.mem_cons.mp hx with h | h
      · subst h
        exact foldl_min_le_init f r _
      · exact foldl_min_le_mem f r _ h

theorem hiBy_ge_mem {α : Type} (f : α → ℚ) {l : List α} {x : α} (hx : x ∈ l) :
    f x ≤ hiBy f l := by
  cases l with
  | nil => cases hx
  | cons p r =>
      rcases List.mem_cons.mp hx with h | h
      · subst h
        exact foldl_max_ge_init f r _
      · exact foldl_max_ge_mem f r _ h

theorem loBy_attained {α : Type} (f : α → ℚ) {l : List α} (h : l ≠ []) :
    ∃ x ∈ l, loBy f l = f x := by
  cases l with
  | nil => exact absurd rfl h
  | cons p r =>
      rcases foldl_min_attained f r (f p) with h1 | ⟨x, hx, hfx⟩
      · exact ⟨p, List.mem_cons_self p r, h1⟩
      · exact ⟨x, List.mem_cons_of_mem _ hx, hfx⟩

theorem loBy_le_hiBy {α : Type} (f : α → ℚ) {l : List α} (h : l ≠ []) :
    loBy f l ≤ hiBy f l := by
  rcases loBy_attained f h with ⟨x, hx, hfx⟩
  exact hfx ▸ hiBy_ge_mem f hx

theorem loBy_map {α β : Type} (f : α → ℚ) (g : β → α) (l : List β) :
    loBy f (l.map g) = loBy (fun x => f (g x)) l := by
  cases l with
  | nil => rfl
  | cons p r => simp [loBy, List.foldl_map]

theorem hiBy_map {α β : Type} (f : α → ℚ) (g : β → α) (l : List β) :
    hiBy f (l.map g) = hiBy (fun x => f (g x)) l := by
  cases l with
  | nil => rfl
  | cons p r => simp [hiBy, List.foldl_map]

/-- 2D height map (toolpath-generator.c `HeightMap`): dense grid of Z values,
`z_grid (y * width + x)`, with `none` for the EMPTY_CELL (NaN) sentinel. -/
structure HeightMap where
  z_grid : ℕ → Option ℚ
  width : ℕ
  height : ℕ
  min_z : ℚ
  max_z : ℚ

/-- Sparse tool (toolpath-generator.c `SparseTool`): the three parallel arrays
`x_offsets`, `y_offsets`, `z_values` are modelled as one list of triples, in
the order the second pass of `create_sparse_tool_from_map` writes them. -/
structure SparseTool where
  points : List (ℤ × ℤ × ℚ)

/-- Toolpath output (toolpath-generator.c `ToolPath`): flat row-major data,
`path_data (scanline * points_per_line + point)`. -/
structure ToolPath where
  path_data : List ℚ
  num_scanlines : ℕ
  points_per_line : ℕ

/-- Tiled terrain (toolpath-generator.c `TiledTerrain`). `tiles i j` is cell
`j` of tile `i`, matching `tiles[tile_idx][local_idx]`. -/
structure TiledTerrain where
  tiles : ℕ → ℕ → Option ℚ
  tile_size : ℕ
  tiles_x : ℕ
  tiles_y : ℕ
  total_width : ℕ
  total_height : ℕ
  min_z : ℚ
  max_z : ℚ

/-- The X cell a point is snapped to by `create_height_map_from_points`:
`(int)roundf((x - min_x) / grid_step)`, then clamped into `[0, width)`. -/
def cellX (pts : List (ℚ × ℚ × ℚ)) (s : ℚ) (p : ℚ × ℚ × ℚ) : ℕ :=
  clampIdx (roundf ((p.1 - loBy (fun q => q.1) pts) / s))
    ((roundf ((hiBy (fun q => q.1) pts - loBy (fun q => q.1) pts) / s) + 1).toNat)

/-- The Y cell a point is snapped to by `create_height_map_from_points`. -/
def cellY (pts : List (ℚ × ℚ × ℚ)) (s : ℚ) (p : ℚ × ℚ × ℚ) : ℕ :=
  clampIdx (roundf ((p.2.1 - loBy (fun q => q.2.1) pts) / s))
    ((roundf ((hiBy (fun q => q.2.1) pts - loBy (fun q => q.2.1) pts) / s) + 1).toNat)

/-- toolpath-generator.c `create_height_map_from_points` (lines 72-127):
bounding box of the cloud, `width = (int)roundf((max_x - min_x)/step) + 1`
(likewise height), grid initialised to EMPTY_CELL, then every point's Z
written at its clamped cell in input order (a later point overwrites an
earlier one at the same cell). `point_count == 0` gives NULL (`none`). -/
def create_height_map_from_points (pts : List (ℚ × ℚ × ℚ)) (s : ℚ) :
    Option HeightMap :=
  match pts with
  | [] => none
  | _ :: _ =>
    let w := (roundf ((hiBy (fun q => q.1) pts - loBy (fun q => q.1) pts) / s) + 1).toNat
    let h := (roundf ((hiBy (fun q => q.2.1) pts - loBy (fun q => q.2.1) pts) / s) + 1).toNat
    some {
      width := w
      height := h
      min_z := loBy (fun q => q.2.2) pts
      max_z := hiBy (fun q => q.2.2) pts
      z_grid := pts.foldl
        (fun g p => fun i => if i = cellY pts s p * w + cellX pts s p then some p.2.2 else g i)
        (fun _ => none) }

/-- toolpath-generator.c `create_tool_height_map` (lines 132-155): find the
tool tip (lowest Z), shift every Z so the tip is at 0, then build a height
map from the shifted cloud. -/
def create_tool_height_map (pts : List (ℚ × ℚ × ℚ)) (s : ℚ) : Option HeightMap :=
  match pts with
  | [] => none
  | _ :: _ =>
    let tip := loBy (fun q => q.2.2) pts
    create_height_map_from_points (pts.map (fun p => (p.1, p.2.1, p.2.2 - tip))) s

/-- The sparse entries `create_sparse_tool_from_map` collects: row-major scan
of the tool map, keeping non-NaN cells as `(tx - W/2, ty - H/2, z)`. -/
def sparseEntries (m : HeightMap) : List (ℤ × ℤ × ℚ) :=
  (List.range m.height).flatMap (fun ty =>
    (List.range m.width).filterMap (fun tx =>
      match m.z_grid (ty * m.width + tx) with
      | some z => some ((tx : ℤ) - (m.width / 2 : ℕ), (ty : ℤ) - (m.height / 2 : ℕ), z)
      | none => none))

/-- toolpath-generator.c `create_sparse_tool_from_map` (lines 161-200): first
pass counts non-NaN cells (NULL result when the count is 0), second pass
emits the offsets from the integer centre `(W/2, H/2)` in row-major order. -/
def create_sparse_tool_from_map (m : HeightMap) : Option SparseTool :=
  let count := (List.range (m.width * m.height)).countP (fun i => (m.z_grid i).isSome)
  if count = 0 then none else some { points := sparseEntries m }

/-- The bounds-checked terrain read of `calculate_tool_height_sparse`
(lines 406-418): out-of-bounds and NaN cells both come back as `none`. -/
def terrain_at (m : HeightMap) (x y : ℤ) : Option ℚ :=
  if 0 ≤ x ∧ x < (m.width : ℤ) ∧ 0 ≤ y ∧ y < (m.height : ℤ) then
    m.z_grid (y.toNat * m.width + x.toNat)
  else none

/-- One step of the `if (delta < min_delta) min_delta = delta;` fold, with the
FLT_MAX start modelled as `none`. -/
def minDeltaStep (acc : Option ℚ) (d : ℚ) : Option ℚ :=
  match acc with
  | none => some d
  | some m => if d < m then some d else some m

/-- toolpath-generator.c `calculate_tool_height_sparse` (lines 391-435): fold
the minimum of `tool_z - terrain_z` over all tool points whose terrain cell
is in bounds and non-NaN; `oob_z` when none is, `-min_delta` otherwise. -/
def calculate_tool_height_sparse (m : HeightMap) (tool : SparseTool)
    (tool_x tool_y : ℤ) (oob_z : ℚ) : ℚ :=
  let min_delta := tool.points.foldl
    (fun acc q =>
      match terrain_at m (tool_x + q.1) (tool_y + q.2.1) with
      | none => acc
      | some tz => minDeltaStep acc (q.2.2 - tz))
    none
  match min_delta with
  | none => oob_z
  | some d => -d

/-- The per-sample contribution list of `calculate_tool_height_sparse`: the
usable deltas `tool_z - terrain_z`, one per tool point whose terrain cell is
in bounds and non-NaN (lines 396-426). -/
def toolDeltas (m : HeightMap) (tool : SparseTool) (tool_x tool_y : ℤ) : List ℚ :=
  tool.points.filterMap (fun q =>
    (terrain_at m (tool_x + q.1) (tool_y + q.2.1)).map (fun tz => q.2.2 - tz))

/-- toolpath-generator.c `generate_toolpath_sparse` (lines 492-521):
`P = (W + x_step - 1) / x_step`, `S = (H + y_step - 1) / y_step`, and one
sample per `(scanline, point)` in raster order at grid position
`(point * x_step, scanline * y_step)`. -/
def generate_toolpath_sparse (m : HeightMap) (tool : SparseTool)
    (x_step y_step : ℕ) (oob_z : ℚ) : ToolPath :=
  let p := (m.width + x_step - 1) / x_step
  let s := (m.height + y_step - 1) / y_step
  { points_per_line := p
    num_scanlines := s
    path_data := (List.range s).flatMap (fun scanline =>
      (List.range p).map (fun point =>
        calculate_tool_height_sparse m tool ((point * x_step : ℕ) : ℤ)
          ((scanline * y_step : ℕ) : ℤ) oob_z)) }

/-- toolpath-generator.c `generate_toolpath_partial` (lines 535-576): clamp
the scanline range to `[0, total]`, return an empty path (`num_scanlines = 0`,
NULL data) when the clamped range is empty, else the rows of that range. -/
def generate_toolpath_partial (m : HeightMap) (tool : SparseTool)
    (x_step y_step : ℕ) (oob_z : ℚ) (start_scanline end_scanline : ℤ) : ToolPath :=
  let p := (m.width + x_step - 1) / x_step
  let total := (m.height + y_step - 1) / y_step
  let s0 := if start_scanline < 0 then 0 else start_scanline
  let e0 := if (total : ℤ) < end_scanline then (total : ℤ) else end_scanline
  if e0 ≤ s0 then
    { points_per_line := p, num_scanlines := 0, path_data := [] }
  else
    { points_per_line := p
      num_scanlines := (e0 - s0).toNat
      path_data := (List.range (e0 - s0).toNat).flatMap (fun k =>
        (List.range p).map (fun point =>
          calculate_tool_height_sparse m tool ((point * x_step : ℕ) : ℤ)
            (((s0.toNat + k) * y_step : ℕ) : ℤ) oob_z)) }

/-- toolpath-generator.c `generate_toolpath` (lines 589-604): sparsify the
tool map (NULL when that fails) and run `generate_toolpath_sparse`. -/
def generate_toolpath (m : HeightMap) (tool_map : HeightMap)
    (x_step y_step : ℕ) (oob_z : ℚ) : Option ToolPath :=
  match create_sparse_tool_from_map tool_map with
  | none => none
  | some sparse => some (generate_toolpath_sparse m sparse x_step y_step oob_z)

/-- A fold that skips `none` values of `f` equals the fold over `filterMap f`. -/
theorem foldl_skip_none {α β γ : Type} (f : α → Option β) (g : γ → β → γ)
    (l : List α) (acc : γ) :
    l.foldl (fun a q => match f q with | none => a | some v => g a v) acc
      = (l.filterMap f).foldl g acc := by
  induction l generalizing acc with
  | nil => rfl
  | cons p r ih =>
      cases hf : f p with
      | none => simp [List.filterMap_cons, hf, ih]
      | some v => simp [List.filterMap_cons, hf, ih]

theorem minDeltaStep_some (m d : ℚ) : minDeltaStep (some m) d = some (min m d) := by
  show (if d < m then some d else some m) = some (min m d)
  rcases lt_or_ge d m with h | h
  · rw [if_pos h, min_eq_right (le_of_lt h)]
  · rw [if_neg (not_lt.mpr h), min_eq_left h]

theorem foldl_minDeltaStep_some (l : List ℚ) (a : ℚ) :
    l.foldl minDeltaStep (some a) = some (l.foldl min a) := by
  induction l generalizing a with
  | nil => rfl
  | cons d r ih => simp only [List.foldl_cons, minDeltaStep_some, ih]

theorem foldl_min_self_le_init (l : List ℚ) (a : ℚ) : l.foldl min a ≤ a :=
  foldl_min_le_init (fun q => q) l a

theorem foldl_min_self_le_mem (l : List ℚ) (a : ℚ) {x : ℚ} (hx : x ∈ l) :
    l.foldl min a ≤ x :=
  foldl_min_le_mem (fun q => q) l a hx

theorem foldl_min_self_attained (l : List ℚ) (a : ℚ) :
    l.foldl min a = a ∨ ∃ x ∈ l, l.foldl min a = x :=
  foldl_min_attained (fun q => q) l a

/-- C1. `calculate_tool_height_sparse` returns `oob_z` when no tool point
contributes a usable delta, and otherwise `-min` of the usable deltas
`tool_z - terrain_z` (a tool point reading an out-of-bounds or NaN terrain
cell contributes nothing). -/
theorem C1_sparse_height_is_neg_min_delta (m : HeightMap) (tool : SparseTool)
    (tool_x tool_y : ℤ) (oob_z : ℚ) :
    (toolDeltas m tool tool_x tool_y = [] ∧
      calculate_tool_height_sparse m tool tool_x tool_y oob_z = oob_z) ∨
    (∃ d, d ∈ toolDeltas m tool tool_x tool_y ∧
      (∀ e ∈ toolDeltas m tool tool_x tool_y, d ≤ e) ∧
      calculate_tool_height_sparse m tool tool_x tool_y oob_z = -d) := by
  have hfold : tool.points.foldl
      (fun acc q =>
        match terrain_at m (tool_x + q.1) (tool_y + q.2.1) with
        | none => acc
        | some tz => minDeltaStep acc (q.2.2 - tz))
      none = (toolDeltas m tool tool_x tool_y).foldl minDeltaStep none := by
    unfold toolDeltas
    rw [← foldl_skip_none
      (fun q => (terrain_at m (tool_x + q.1) (tool_y + q.2.1)).map (fun tz => q.2.2 - tz))
      minDeltaStep tool.points none]
    apply List.foldl_ext
    intro a q _
    cases h : terrain_at m (tool_x + q.1) (tool_y + q.2.1) <;> simp [h]
  unfold calculate_tool_height_sparse
  rw [hfold]
  cases hl : toolDeltas m tool tool_x tool_y with
  | nil => exact Or.inl ⟨rfl, rfl⟩
  | cons d r =>
      right
      simp only [List.foldl_cons]
      rw [show minDeltaStep none d = some d from rfl, foldl_minDeltaStep_some]
      refine ⟨r.foldl min d, ?_, ?_, rfl⟩
      · rcases foldl_min_self_attained r d with h | ⟨x, hx, hfx⟩
        · rw [h]
          exact List.mem_cons_self d r
        · rw [hfx]
          exact List.mem_cons_of_mem _ hx
      · intro e he
        rcases List.mem_cons.mp he with h | h
        · exact h ▸ foldl_min_self_le_init r d
        · exact foldl_min_self_le_mem r d h

/-- A left fold of single-cell writes reads back as "latest writer wins": the
value at `i` is the Z of the last list element whose cell index is `i`, or
the initial grid's value when no element writes `i`. -/
theorem foldl_write_eq {α : Type} (idx : α → ℕ) (zf : α → ℚ) (pts : List α)
    (g0 : ℕ → Option ℚ) (i : ℕ) :
    (pts.foldl (fun g p => fun j => if j = idx p then some (zf p) else g j) g0) i
      = match pts.reverse.find? (fun p => decide (idx p = i)) with
        | some p => some (zf p)
        | none => g0 i := by
  induction pts generalizing g0 with
  | nil => rfl
  | cons p r ih =>
      simp only [List.foldl_cons, List.reverse_cons, List.find?_append]
      rw [ih]
      cases hr : r.reverse.find? (fun q => decide (idx q = i)) with
      | some q => rfl
      | none =>
          simp only [Option.none_or]
          by_cases hp : idx p = i
          · simp [List.find?, hp]
          · simp [List.find?, hp, Ne.symm hp]

/-- Specialisation of `foldl_write_eq` to the all-NaN initial grid. -/
theorem foldl_write_eq_none {α : Type} (idx : α → ℕ) (zf : α → ℚ) (pts : List α) (i : ℕ) :
    (pts.foldl (fun g p => fun j => if j = idx p then some (zf p) else g j) (fun _ => none)) i
      = Option.map zf (pts.reverse.find? (fun p => decide (idx p = i))) := by
  rw [foldl_write_eq]
  cases pts.reverse.find? (fun p => decide (idx p = i)) <;> rfl

/-- Positivity of the computed grid dimensions for a non-empty cloud. -/
theorem gridDim_pos (f : (ℚ × ℚ × ℚ) → ℚ) (pts : List (ℚ × ℚ × ℚ)) (s : ℚ)
    (hne : pts ≠ []) (hs : 0 < s) :
    0 < (roundf ((hiBy f pts - loBy f pts) / s) + 1).toNat := by
  have h1 : loBy f pts ≤ hiBy f pts := loBy_le_hiBy f hne
  have h2 : (0:ℚ) ≤ (hiBy f pts - loBy f pts) / s :=
    div_nonneg (by linarith) (le_of_lt hs)
  have h3 := roundf_nonneg h2
  omega

/-- Row-major cell indices decompose uniquely when both columns are in range. -/
theorem rowmajor_eq_iff {w cx gx cy gy : ℕ} (hcx : cx < w) (hgx : gx < w) :
    cy * w + cx = gy * w + gx ↔ cx = gx ∧ cy = gy := by
  constructor
  · intro h
    have hmod : (w * cy + cx) % w = (w * gy + gx) % w := by
      rw [mul_comm w cy, mul_comm w gy, h]
    rw [Nat.mul_add_mod, Nat.mul_add_mod, Nat.mod_eq_of_lt hcx, Nat.mod_eq_of_lt hgx] at hmod
    have hdiv : (w * cy + cx) / w = (w * gy + gx) / w := by
      rw [mul_comm w cy, mul_comm w gy, h]
    rw [Nat.mul_add_div (by omega), Nat.mul_add_div (by omega),
      Nat.div_eq_of_lt hcx, Nat.div_eq_of_lt hgx] at hdiv
    omega
  · rintro ⟨h1, h2⟩
    rw [h1, h2]

/-- C5. For a non-empty cloud the builder returns a map with
`W = round((x_max - x_min)/s) + 1` (likewise `H`); every cell holds the Z of
the last point clamped into it (and is NaN when no point lands there); an
empty cloud gives a null map. -/
theorem C5_create_height_map_spec (pts : List (ℚ × ℚ × ℚ)) (s : ℚ)
    (hne : pts ≠ []) (hs : 0 < s) :
    ∃ m, create_height_map_from_points pts s = some m ∧
      (m.width : ℤ) = roundf ((hiBy (fun q => q.1) pts - loBy (fun q => q.1) pts) / s) + 1 ∧
      (m.height : ℤ) = roundf ((hiBy (fun q => q.2.1) pts - loBy (fun q => q.2.1) pts) / s) + 1 ∧
      (∀ gx gy, gx < m.width → gy < m.height →
        m.z_grid (gy * m.width + gx) =
          Option.map (fun p => p.2.2)
            (pts.reverse.find? (fun p => decide (cellX pts s p = gx ∧ cellY pts s p = gy)))) ∧
      create_height_map_from_points ([] : List (ℚ × ℚ × ℚ)) s = none := by
  obtain ⟨p0, r0, rfl⟩ : ∃ p0 r0, pts = p0 :: r0 := by
    cases pts with
    | nil => exact absurd rfl hne
    | cons a b => exact ⟨a, b, rfl⟩
  have hwpos := gridDim_pos (fun q => q.1) (p0 :: r0) s hne hs
  have hhpos := gridDim_pos (fun q => q.2.1) (p0 :: r0) s hne hs
  have hxr := roundf_nonneg
    (q := (hiBy (fun q => q.1) (p0 :: r0) - loBy (fun q => q.1) (p0 :: r0)) / s)
    (div_nonneg (by have := loBy_le_hiBy (fun q => q.1) hne; linarith) (le_of_lt hs))
  have hyr := roundf_nonneg
    (q := (hiBy (fun q => q.2.1) (p0 :: r0) - loBy (fun q => q.2.1) (p0 :: r0)) / s)
    (div_nonneg (by have := loBy_le_hiBy (fun q => q.2.1) hne; linarith) (le_of_lt hs))
  refine ⟨_, rfl, by push_cast; omega, by push_cast; omega, ?_, rfl⟩
  intro gx gy hgx hgy
  dsimp only at hgx hgy ⊢
  rw [foldl_write_eq]
  have hpred : (fun p => decide
        (cellY (p0 :: r0) s p * (roundf ((hiBy (fun q => q.1) (p0 :: r0) - loBy (fun q => q.1) (p0 :: r0)) / s) + 1).toNat
          + cellX (p0 :: r0) s p
          = gy * (roundf ((hiBy (fun q => q.1) (p0 :: r0) - loBy (fun q => q.1) (p0 :: r0)) / s) + 1).toNat + gx))
      = (fun p => decide (cellX (p0 :: r0) s p = gx ∧ cellY (p0 :: r0) s p = gy)) := by
    funext p
    have hc : cellX (p0 :: r0) s p
        < (roundf ((hiBy (fun q => q.1) (p0 :: r0) - loBy (fun q => q.1) (p0 :: r0)) / s) + 1).toNat :=
      clampIdx_lt _ hwpos
    rw [decide_eq_decide]
    exact rowmajor_eq_iff hc hgx
  rw [hpred]
  cases (p0 :: r0).reverse.find?
      (fun p => decide (cellX (p0 :: r0) s p = gx ∧ cellY (p0 :: r0) s p = gy)) <;> rfl

/-- C9. A non-null terrain and a non-null but all-NaN tool map make
`generate_toolpath` return a null toolpath: the sparse-tool builder counts
zero non-NaN cells and returns NULL, which `generate_toolpath` propagates. -/
theorem C9_all_nan_tool_gives_null_path (terrain tool_map : HeightMap)
    (x_step y_step : ℕ) (oob_z : ℚ)
    (hnan : ∀ i, i < tool_map.width * tool_map.height → tool_map.z_grid i = none) :
    generate_toolpath terrain tool_map x_step y_step oob_z = none := by
  have hcount : (List.range (tool_map.width * tool_map.height)).countP
      (fun i => (tool_map.z_grid i).isSome) = 0 := by
    rw [List.countP_eq_zero]
    intro i hi
    rw [hnan i (List.mem_range.mp hi)]
    simp
  unfold generate_toolpath create_sparse_tool_from_map
  rw [hcount]
  rfl

/-- Witness for C9: a 1 by 1 all-NaN tool map over a 1 by 1 terrain. -/
theorem C9_witness :
    (∀ i, i < (1:ℕ) * 1 → (HeightMap.mk (fun _ => none) 1 1 0 0).z_grid i = none) ∧
    generate_toolpath (HeightMap.mk (fun _ => some 0) 1 1 0 0)
      (HeightMap.mk (fun _ => none) 1 1 0 0) 1 1 (-100) = none :=
  ⟨fun _ _ => rfl,
    C9_all_nan_tool_gives_null_path _ _ 1 1 (-100) (fun _ _ => rfl)⟩

/-- C10. `generate_toolpath_partial` clamps the requested scanline range to
`[0, total]`; an empty clamped range yields a non-null path with zero
scanlines and no data, a non-empty one yields `end - start` scanlines. -/
theorem C10_partial_range_clamping (m : HeightMap) (tool : SparseTool)
    (x_step y_step : ℕ) (oob_z : ℚ) (start_scanline end_scanline : ℤ) :
    (max start_scanline 0 ≥ min end_scanline ((m.height + y_step - 1) / y_step : ℕ) →
      ( generate_toolpath_partial m tool x_step y_step oob_z start_scanline end_scanline).num_scanlines = 0 ∧
      ( generate_toolpath_partial m tool x_step y_step oob_z start_scanline end_scanline).path_data = []) ∧
    (max start_scanline 0 < min end_scanline ((m.height + y_step - 1) / y_step : ℕ) →
      (( generate_toolpath_partial m tool x_step y_step oob_z start_scanline end_scanline).num_scanlines : ℤ)
        = min end_scanline ((m.height + y_step - 1) / y_step : ℕ) - max start_scanline 0) := by
  unfold generate_toolpath_partial
  dsimp only
  have hs0 : (if start_scanline < 0 then 0 else start_scanline) = max start_scanline 0 := by
    rcases lt_or_ge start_scanline 0 with h | h
    · rw [if_pos h, max_eq_right (le_of_lt h)]
    · rw [if_neg (not_lt.mpr h), max_eq_left h]
  have he0 : (if (((m.height + y_step - 1) / y_step : ℕ) : ℤ) < end_scanline
      then (((m.height + y_step - 1) / y_step : ℕ) : ℤ) else end_scanline)
      = min end_scanline ((m.height + y_step - 1) / y_step : ℕ) := by
    rcases lt_or_ge (((m.height + y_step - 1) / y_step : ℕ) : ℤ) end_scanline with h | h
    · rw [if_pos h, min_eq_right (le_of_lt h)]
    · rw [if_neg (not_lt.mpr h), min_eq_left h]
  rw [hs0, he0]
  constructor
  · intro hrange
    rw [if_pos (by omega)]
    exact ⟨rfl, rfl⟩
  · intro hrange
    rw [if_neg (by omega)]
    dsimp only
    omega

/-- Indexing a flattened list of equal-length rows: entry `i * p + j` is entry
`j` of row `i`. -/
theorem flatten_rowmajor_get {α : Type} (rows : List (List α)) (p : ℕ)
    (hlen : ∀ l ∈ rows, l.length = p) :
    ∀ i j, i < rows.length → j < p →
      rows.flatten[i * p + j]? = rows[i]?.bind (fun l => l[j]?) := by
  induction rows with
  | nil => intro i j hi _; cases hi
  | cons l rest ih =>
      intro i j hi hj
      have hl : l.length = p := hlen l (List.mem_cons_self _ _)
      cases i with
      | zero =>
          simp only [List.flatten_cons, Nat.zero_mul, Nat.zero_add]
          rw [List.getElem?_append, if_pos (by omega)]
          simp
      | succ i2 =>
          have hge : l.length ≤ (i2 + 1) * p + j := by
            have : p ≤ (i2 + 1) * p := Nat.le_mul_of_pos_left p (Nat.succ_pos i2)
            omega
          simp only [List.flatten_cons]
          rw [List.getElem?_append_right hge]
          have harith : (i2 + 1) * p + j - l.length = i2 * p + j := by
            have : (i2 + 1) * p = i2 * p + p := by ring
            omega
          rw [harith, ih (fun x hx => hlen x (List.mem_cons_of_mem _ hx)) i2 j
            (Nat.lt_of_succ_lt_succ hi) hj]
          simp

/-- The C idiom `(a + b - 1) / b` computes the rational ceiling of `a / b`. -/
theorem natCeilDiv_eq_ceil (a b : ℕ) (hb : 0 < b) :
    (((a + b - 1) / b : ℕ) : ℤ) = ⌈(a : ℚ) / (b : ℚ)⌉ := by
  obtain ⟨c, rfl⟩ : ∃ c, b = c + 1 := ⟨b - 1, by omega⟩
  have hred : a + (c + 1) - 1 = a + c := by omega
  rw [hred]
  have hbq : (0:ℚ) < (((c + 1 : ℕ) : ℚ)) := by positivity
  have hmod := Nat.div_add_mod (a + c) (c + 1)
  have hlt : (a + c) % (c + 1) < c + 1 := Nat.mod_lt _ (by omega)
  have h1 : (a + c) / (c + 1) * (c + 1) ≤ a + c := Nat.div_mul_le_self _ _
  symm
  rw [Int.ceil_eq_iff]
  rw [show (((((a + c) / (c + 1) : ℕ) : ℤ)) : ℚ) = (((a + c) / (c + 1) : ℕ) : ℚ) from
    Int.cast_natCast _]
  constructor
  · rw [lt_div_iff₀ hbq]
    have h1q : (((a + c) / (c + 1) : ℕ) : ℚ) * ((c + 1 : ℕ) : ℚ) ≤ (a : ℚ) + (c : ℚ) := by
      exact_mod_cast h1
    have hc1 : ((c + 1 : ℕ) : ℚ) = (c : ℚ) + 1 := by push_cast; ring
    rw [hc1] at h1q ⊢
    nlinarith [h1q]
  · rw [div_le_iff₀ hbq]
    have h2n : a ≤ (a + c) / (c + 1) * (c + 1) := by
      have hexp : ((a + c) / (c + 1) + 1) * (c + 1)
          = (c + 1) * ((a + c) / (c + 1)) + (c + 1) := by ring
      have hcomm : (a + c) / (c + 1) * (c + 1) = (c + 1) * ((a + c) / (c + 1)) :=
        Nat.mul_comm _ _
      omega
    exact_mod_cast h2n

/-- C6. The generated toolpath has `P = ceil(W / x_step)` points per line and
`S = ceil(H / y_step)` scanlines, holds `S * P` entries, and entry
`scanline * P + point` is the sample at grid position
`(point * x_step, scanline * y_step)` (row-major emission order). -/
theorem C6_toolpath_dims_and_raster_order (m : HeightMap) (tool : SparseTool)
    (x_step y_step : ℕ) (oob_z : ℚ) (hx : 1 ≤ x_step) (hy : 1 ≤ y_step) :
    ((generate_toolpath_sparse m tool x_step y_step oob_z).points_per_line : ℤ)
        = ⌈(m.width : ℚ) / (x_step : ℚ)⌉ ∧
    ((generate_toolpath_sparse m tool x_step y_step oob_z).num_scanlines : ℤ)
        = ⌈(m.height : ℚ) / (y_step : ℚ)⌉ ∧
    (generate_toolpath_sparse m tool x_step y_step oob_z).path_data.length
        = (generate_toolpath_sparse m tool x_step y_step oob_z).num_scanlines
          * (generate_toolpath_sparse m tool x_step y_step oob_z).points_per_line ∧
    (∀ sl pt,
      sl < (generate_toolpath_sparse m tool x_step y_step oob_z).num_scanlines →
      pt < (generate_toolpath_sparse m tool x_step y_step oob_z).points_per_line →
      (generate_toolpath_sparse m tool x_step y_step oob_z).path_data[
          sl * (generate_toolpath_sparse m tool x_step y_step oob_z).points_per_line + pt]?
        = some (calculate_tool_height_sparse m tool ((pt * x_step : ℕ) : ℤ)
            ((sl * y_step : ℕ) : ℤ) oob_z)) := by
  unfold generate_toolpath_sparse
  dsimp only
  refine ⟨natCeilDiv_eq_ceil m.width x_step hx,
    natCeilDiv_eq_ceil m.height y_step hy, ?_, ?_⟩
  · rw [List.length_flatMap]
    have hconst : List.map
        (List.length ∘ fun scanline => (List.range ((m.width + x_step - 1) / x_step)).map
          (fun point => calculate_tool_height_sparse m tool ((point * x_step : ℕ) : ℤ)
            ((scanline * y_step : ℕ) : ℤ) oob_z))
        (List.range ((m.height + y_step - 1) / y_step))
        = List.map (fun _ => ((m.width + x_step - 1) / x_step))
            (List.range ((m.height + y_step - 1) / y_step)) := by
      apply List.map_congr_left
      intro x _
      dsimp only [Function.comp]
      rw [List.length_map, List.length_range]
    rw [hconst, List.map_const', List.length_range, List.sum_replicate, smul_eq_mul]
  · intro sl pt hsl hpt
    rw [List.flatMap_def, flatten_rowmajor_get _ ((m.width + x_step - 1) / x_step)]
    · rw [List.getElem?_map, List.getElem?_range (by exact hsl)]
      simp only [Option.map_some', Option.some_bind]
      rw [List.getElem?_map, List.getElem?_range (by exact hpt)]
      rfl
    · intro l hl
      rcases List.mem_map.mp hl with ⟨i, _, rfl⟩
      rw [List.length_map, List.length_range]
    · rw [List.length_map, List.length_range]
      exact hsl
    · exact hpt

/-- One raster row of `generate_toolpath_sparse` / `generate_toolpath_partial`. -/
def toolpathRow (m : HeightMap) (tool : SparseTool) (x_step y_step : ℕ)
    (oob_z : ℚ) (scanline : ℕ) : List ℚ :=
  (List.range ((m.width + x_step - 1) / x_step)).map (fun point =>
    calculate_tool_height_sparse m tool ((point * x_step : ℕ) : ℤ)
      ((scanline * y_step : ℕ) : ℤ) oob_z)

/-- Splitting a raster over `range S` at a row index `a ≤ S`. -/
theorem flatMap_range_split {α : Type} (f : ℕ → List α) (a S : ℕ) (h : a ≤ S) :
    (List.range S).flatMap f
      = (List.range a).flatMap f ++ (List.range (S - a)).flatMap (fun k => f (a + k)) := by
  conv_lhs => rw [show S = a + (S - a) by omega]
  rw [List.range_add, List.flatMap_append, List.flatMap_map]

/-- `generate_toolpath_partial` on an in-range, non-empty scanline interval. -/
theorem toolpath_partial_eval (m : HeightMap) (tool : SparseTool)
    (x_step y_step : ℕ) (oob_z : ℚ) (u v : ℕ) (huv : u < v)
    (hv : v ≤ (m.height + y_step - 1) / y_step) :
    generate_toolpath_partial m tool x_step y_step oob_z (u : ℤ) (v : ℤ)
      = { points_per_line := (m.width + x_step - 1) / x_step
          num_scanlines := v - u
          path_data := (List.range (v - u)).flatMap (fun k =>
            toolpathRow m tool x_step y_step oob_z (u + k)) } := by
  unfold generate_toolpath_partial
  dsimp only
  have hc1 : ¬ ((u : ℤ) < 0) := by omega
  have hc2 : ¬ ((((m.height + y_step - 1) / y_step : ℕ) : ℤ) < (v : ℤ)) := by
    omega
  simp only [if_neg hc1, if_neg hc2]
  have hc3 : ¬ ((v : ℤ) ≤ (u : ℤ)) := by omega
  rw [if_neg hc3]
  have h1 : ((v : ℤ) - (u : ℤ)).toNat = v - u := by omega
  have h2 : ((u : ℤ)).toNat = u := by omega
  simp only [h1, h2]
  rfl

/-- `generate_toolpath_partial` on an in-range but empty scanline interval. -/
theorem toolpath_partial_empty (m : HeightMap) (tool : SparseTool)
    (x_step y_step : ℕ) (oob_z : ℚ) (u v : ℕ) (huv : v ≤ u)
    (hv : v ≤ (m.height + y_step - 1) / y_step) :
    generate_toolpath_partial m tool x_step y_step oob_z (u : ℤ) (v : ℤ)
      = { points_per_line := (m.width + x_step - 1) / x_step
          num_scanlines := 0
          path_data := [] } := by
  unfold generate_toolpath_partial
  dsimp only
  have hc1 : ¬ ((u : ℤ) < 0) := by omega
  have hc2 : ¬ ((((m.height + y_step - 1) / y_step : ℕ) : ℤ) < (v : ℤ)) := by
    omega
  simp only [if_neg hc1, if_neg hc2]
  rw [if_pos (by omega)]

/-- C4. With `S` total scanlines, the full toolpath equals, entry for entry,
the concatenation of the partial toolpath over rows `[0, S/2)` and the
partial toolpath over rows `[S/2, S)` (and `generate_toolpath` is the sparse
evaluation of the sparsified tool map). -/
theorem C4_generate_eq_concat_of_partials (terrain tool_map : HeightMap)
    (x_step y_step : ℕ) (oob_z : ℚ) (st : SparseTool)
    (hst : create_sparse_tool_from_map tool_map = some st) :
    generate_toolpath terrain tool_map x_step y_step oob_z
      = some (generate_toolpath_sparse terrain st x_step y_step oob_z) ∧
    (generate_toolpath_sparse terrain st x_step y_step oob_z).path_data
      = ( generate_toolpath_partial terrain st x_step y_step oob_z ((0 : ℕ) : ℤ)
            ((((terrain.height + y_step - 1) / y_step) / 2 : ℕ) : ℤ)).path_data
        ++ ( generate_toolpath_partial terrain st x_step y_step oob_z
            ((((terrain.height + y_step - 1) / y_step) / 2 : ℕ) : ℤ)
            (((terrain.height + y_step - 1) / y_step : ℕ) : ℤ)).path_data ∧
    (generate_toolpath_sparse terrain st x_step y_step oob_z).num_scanlines
      = ( generate_toolpath_partial terrain st x_step y_step oob_z ((0 : ℕ) : ℤ)
            ((((terrain.height + y_step - 1) / y_step) / 2 : ℕ) : ℤ)).num_scanlines
        + ( generate_toolpath_partial terrain st x_step y_step oob_z
            ((((terrain.height + y_step - 1) / y_step) / 2 : ℕ) : ℤ)
            (((terrain.height + y_step - 1) / y_step : ℕ) : ℤ)).num_scanlines := by
  refine ⟨by unfold generate_toolpath; rw [hst], ?_⟩
  have hdata : (generate_toolpath_sparse terrain st x_step y_step oob_z).path_data
      = (List.range ((terrain.height + y_step - 1) / y_step)).flatMap
          (toolpathRow terrain st x_step y_step oob_z) := rfl
  by_cases hS : (terrain.height + y_step - 1) / y_step = 0
  · have ha : ((terrain.height + y_step - 1) / y_step) / 2 = 0 := by rw [hS]
    rw [show ((((terrain.height + y_step - 1) / y_step) / 2 : ℕ) : ℤ) = ((0 : ℕ) : ℤ) from by
        rw [ha],
      show (((terrain.height + y_step - 1) / y_step : ℕ) : ℤ) = ((0 : ℕ) : ℤ) from by
        rw [hS]]
    rw [toolpath_partial_empty terrain st x_step y_step oob_z 0 0 (le_refl 0) (Nat.zero_le _)]
    constructor
    · rw [hdata, hS]
      rfl
    · show (generate_toolpath_sparse terrain st x_step y_step oob_z).num_scanlines = 0 + 0
      show (terrain.height + y_step - 1) / y_step = 0 + 0
      rw [hS]
  · by_cases ha : ((terrain.height + y_step - 1) / y_step) / 2 = 0
    · rw [show ((((terrain.height + y_step - 1) / y_step) / 2 : ℕ) : ℤ) = ((0 : ℕ) : ℤ) from by
          rw [ha]]
      rw [toolpath_partial_empty terrain st x_step y_step oob_z 0 0 (le_refl 0) (Nat.zero_le _)]
      rw [toolpath_partial_eval terrain st x_step y_step oob_z 0
        ((terrain.height + y_step - 1) / y_step) (Nat.pos_of_ne_zero hS) (le_refl _)]
      constructor
      · rw [hdata]
        simp only [List.nil_append, Nat.sub_zero, Nat.zero_add]
      · show (terrain.height + y_step - 1) / y_step
          = 0 + ((terrain.height + y_step - 1) / y_step - 0)
        rw [Nat.zero_add, Nat.sub_zero]
    · have hSpos : 0 < (terrain.height + y_step - 1) / y_step := Nat.pos_of_ne_zero hS
      have hlt : ((terrain.height + y_step - 1) / y_step) / 2
          < (terrain.height + y_step - 1) / y_step := Nat.div_lt_self hSpos (by norm_num)
      rw [toolpath_partial_eval terrain st x_step y_step oob_z 0
          (((terrain.height + y_step - 1) / y_step) / 2) (Nat.pos_of_ne_zero ha) (le_of_lt hlt),
        toolpath_partial_eval terrain st x_step y_step oob_z
          (((terrain.height + y_step - 1) / y_step) / 2)
          ((terrain.height + y_step - 1) / y_step) hlt (le_refl _)]
      constructor
      · rw [hdata, flatMap_range_split (toolpathRow terrain st x_step y_step oob_z)
          (((terrain.height + y_step - 1) / y_step) / 2)
          ((terrain.height + y_step - 1) / y_step) (le_of_lt hlt)]
        simp only [Nat.sub_zero, Nat.zero_add]
      · show (terrain.height + y_step - 1) / y_step
          = (((terrain.height + y_step - 1) / y_step) / 2 - 0)
            + ((terrain.height + y_step - 1) / y_step
              - ((terrain.height + y_step - 1) / y_step) / 2)
        rw [Nat.sub_zero]
        exact (Nat.add_sub_cancel' (Nat.div_le_self _ 2)).symm



/-- Fuel-driven trailing-zero counter (structural, so that it computes). -/
def ctzAux : ℕ → ℕ → ℕ
  | 0, _ => 0
  | fuel + 1, n => if n % 2 = 1 ∨ n = 0 then 0 else ctzAux fuel (n / 2) + 1

/-- Count of trailing zero bits: the model of `__builtin_ctz` (the fuel `n`
always suffices, since at most `log2 n` halvings reach an odd number). -/
def ctz (n : ℕ) : ℕ := ctzAux n n

theorem ctzAux_pow2 : ∀ k fuel, 2 ^ k ≤ fuel → ctzAux fuel (2 ^ k) = k := by
  intro k
  induction k with
  | zero =>
      intro fuel hf
      obtain ⟨f, rfl⟩ : ∃ f, fuel = f + 1 := ⟨fuel - 1, by omega⟩
      simp [ctzAux]
  | succ k ih =>
      intro fuel hf
      have h2 : (2:ℕ) ^ (k + 1) = 2 ^ k * 2 := by rw [pow_succ]
      have hfpos : 2 ≤ fuel := by
        have : (2:ℕ) ≤ 2 ^ (k + 1) := by
          calc (2:ℕ) = 2 ^ 1 := by norm_num
            _ ≤ 2 ^ (k + 1) := Nat.pow_le_pow_right (by norm_num) (by omega)
        omega
      obtain ⟨f, rfl⟩ : ∃ f, fuel = f + 1 := ⟨fuel - 1, by omega⟩
      have hodd : ¬ (2 ^ (k + 1) % 2 = 1 ∨ 2 ^ (k + 1) = 0) := by
        have hpos : 0 < (2:ℕ) ^ (k + 1) := Nat.pos_pow_of_pos _ (by norm_num)
        have : 2 ^ (k + 1) % 2 = 0 := by
          rw [h2]
          exact Nat.mul_mod_left (2 ^ k) 2
        omega
      unfold ctzAux
      rw [if_neg hodd]
      have hdiv : 2 ^ (k + 1) / 2 = 2 ^ k := by
        rw [h2]
        exact Nat.mul_div_cancel _ (by norm_num)
      rw [hdiv, ih f (by omega)]

theorem ctz_pow2 (k : ℕ) : ctz (2 ^ k) = k := ctzAux_pow2 k (2 ^ k) le_rfl

/-- The C power-of-two test `(n & (n - 1)) == 0` characterises the powers of
two among the non-zero naturals. -/
theorem pow2_of_and_pred : ∀ n : ℕ, n ≠ 0 → n &&& (n - 1) = 0 → ∃ k, n = 2 ^ k := by
  intro n
  induction n using Nat.strong_induction_on with
  | _ n ih =>
    intro h0 h
    rcases Nat.even_or_odd n with he | ho
    · obtain ⟨m, hm⟩ := he
      have hm2 : n = 2 * m := by omega
      have hmne : m ≠ 0 := by omega
      have hdiv : (n &&& (n - 1)) / 2 = m &&& (m - 1) := by
        rw [Nat.and_div_two]
        have e1 : n / 2 = m := by omega
        have e2 : (n - 1) / 2 = m - 1 := by omega
        rw [e1, e2]
      rw [h] at hdiv
      have hz : m &&& (m - 1) = 0 := by
        have : (0:ℕ) / 2 = 0 := rfl
        omega
      obtain ⟨k, hk⟩ := ih m (by omega) hmne hz
      exact ⟨k + 1, by rw [hm2, hk, pow_succ]; ring⟩
    · obtain ⟨m, hm⟩ := ho
      have hval : n &&& (n - 1) = n - 1 := by
        have hdiv : (n &&& (n - 1)) / 2 = m := by
          rw [Nat.and_div_two]
          have e1 : n / 2 = m := by omega
          have e2 : (n - 1) / 2 = m := by omega
          rw [e1, e2, Nat.and_self]
        have hmod : (n &&& (n - 1)) % 2 = 0 := by
          rcases Nat.mod_two_eq_zero_or_one (n &&& (n - 1)) with h2 | h2
          · exact h2
          · have hboth := Nat.and_mod_two_eq_one.mp h2
            omega
        have := Nat.div_add_mod (n &&& (n - 1)) 2
        omega
      rw [hval] at h
      exact ⟨0, by omega⟩

/-- A non-zero `n` passing the C power-of-two test equals `2 ^ ctz n`. -/
theorem eq_two_pow_ctz {n : ℕ} (h0 : n ≠ 0) (h : n &&& (n - 1) = 0) :
    n = 2 ^ ctz n := by
  obtain ⟨k, rfl⟩ := pow2_of_and_pred n h0 h
  rw [ctz_pow2]

/-- toolpath-generator.c `create_tiled_terrain` (lines 218-270): break the
height map into `tile_size` by `tile_size` tiles (`EMPTY_CELL` outside the
original bounds); NULL when `tile_size <= 0`. `tiles` is the functional
read-back of the filled tile buffers. -/
def create_tiled_terrain (m : HeightMap) (tile_size : ℕ) : Option TiledTerrain :=
  if tile_size = 0 then none
  else
    let tiles_x := (m.width + tile_size - 1) / tile_size
    let tiles_y := (m.height + tile_size - 1) / tile_size
    some {
      tile_size := tile_size
      tiles_x := tiles_x
      tiles_y := tiles_y
      total_width := m.width
      total_height := m.height
      min_z := m.min_z
      max_z := m.max_z
      tiles := fun tile_idx local_idx =>
        let tx := tile_idx % tiles_x
        let ty := tile_idx / tiles_x
        let lx := local_idx % tile_size
        let ly := local_idx / tile_size
        let gx := tx * tile_size + lx
        let gy := ty * tile_size + ly
        if ty < tiles_y ∧ ly < tile_size ∧ gx < m.width ∧ gy < m.height then
          m.z_grid (gy * m.width + gx)
        else none }

/-- toolpath-generator.c `get_tiled_z` (lines 290-324): bounds check, then the
tile/local decomposition — by shift and mask when `tile_size` passes the C
power-of-two test, by division and modulo otherwise. -/
def get_tiled_z (tiled : TiledTerrain) (x y : ℤ) : Option ℚ :=
  if x < 0 ∨ (tiled.total_width : ℤ) ≤ x ∨ y < 0 ∨ (tiled.total_height : ℤ) ≤ y then
    none
  else
    let xn := x.toNat
    let yn := y.toNat
    if tiled.tile_size &&& (tiled.tile_size - 1) = 0 then
      let shift := ctz tiled.tile_size
      let mask := tiled.tile_size - 1
      tiled.tiles ((yn >>> shift) * tiled.tiles_x + (xn >>> shift))
        ((yn &&& mask) * tiled.tile_size + (xn &&& mask))
    else
      tiled.tiles ((yn / tiled.tile_size) * tiled.tiles_x + (xn / tiled.tile_size))
        ((yn % tiled.tile_size) * tiled.tile_size + (xn % tiled.tile_size))

/-- toolpath-generator.c `calculate_tool_height_tiled` (lines 341-378): the
same min-clearance fold as the sparse evaluator, reading terrain through the
tiled layout. -/
def calculate_tool_height_tiled (tiled : TiledTerrain) (tool : SparseTool)
    (tool_x tool_y : ℤ) (oob_z : ℚ) : ℚ :=
  let min_delta := tool.points.foldl
    (fun acc q =>
      match get_tiled_z tiled (tool_x + q.1) (tool_y + q.2.1) with
      | none => acc
      | some tz => minDeltaStep acc (q.2.2 - tz))
    none
  match min_delta with
  | none => oob_z
  | some d => -d

/-- toolpath-generator.c `generate_toolpath_tiled` (lines 450-479): raster
scan over the tiled terrain, same dimensions as the flat generator. -/
def generate_toolpath_tiled (tiled : TiledTerrain) (tool : SparseTool)
    (x_step y_step : ℕ) (oob_z : ℚ) : ToolPath :=
  let p := (tiled.total_width + x_step - 1) / x_step
  let s := (tiled.total_height + y_step - 1) / y_step
  { points_per_line := p
    num_scanlines := s
    path_data := (List.range s).flatMap (fun scanline =>
      (List.range p).map (fun point =>
        calculate_tool_height_tiled tiled tool ((point * x_step : ℕ) : ℤ)
          ((scanline * y_step : ℕ) : ℤ) oob_z)) }

/-- A column index below `w` lands in a tile index below `ceil(w / ts)`. -/
theorem div_lt_ceilDiv {a w ts : ℕ} (hts : 0 < ts) (h : a < w) :
    a / ts < (w + ts - 1) / ts := by
  have h1 : a / ts ≤ (w - 1) / ts := Nat.div_le_div_right (by omega)
  have h2 : w + ts - 1 = (w - 1) + ts := by omega
  rw [h2, Nat.add_div_right _ hts]
  omega

theorem create_tiled_dims (m : HeightMap) (ts : ℕ) (tiled : TiledTerrain)
    (hc : create_tiled_terrain m ts = some tiled) :
    tiled.total_width = m.width ∧ tiled.total_height = m.height := by
  unfold create_tiled_terrain at hc
  by_cases hts : ts = 0
  · rw [if_pos hts] at hc
    cases hc
  · rw [if_neg hts] at hc
    cases hc
    exact ⟨rfl, rfl⟩

/-- Reading the tiled terrain at any position gives back the flat height-map
read, whether the tile size is a power of two (shift/mask path) or not
(division/modulo path). -/
theorem get_tiled_z_eq (m : HeightMap) (ts : ℕ) (tiled : TiledTerrain)
    (hc : create_tiled_terrain m ts = some tiled) (x y : ℤ) :
    get_tiled_z tiled x y = terrain_at m x y := by
  unfold create_tiled_terrain at hc
  by_cases hts : ts = 0
  · rw [if_pos hts] at hc
    cases hc
  · rw [if_neg hts] at hc
    cases hc
    unfold get_tiled_z terrain_at
    dsimp only
    by_cases hb : x < 0 ∨ (m.width : ℤ) ≤ x ∨ y < 0 ∨ (m.height : ℤ) ≤ y
    · rw [if_pos hb, if_neg (by intro hcon; rcases hb with h | h | h | h <;> omega)]
    · rw [if_neg hb]
      push_neg at hb
      rw [if_pos hb]
      have hxw : x.toNat < m.width := by omega
      have hyh : y.toNat < m.height := by omega
      have htiles : ∀ u v : ℕ, u < m.width → v < m.height →
          (fun tile_idx local_idx =>
            let tx := tile_idx % ((m.width + ts - 1) / ts)
            let ty := tile_idx / ((m.width + ts - 1) / ts)
            let lx := local_idx % ts
            let ly := local_idx / ts
            let gx := tx * ts + lx
            let gy := ty * ts + ly
            if ty < (m.height + ts - 1) / ts ∧ ly < ts ∧ gx < m.width ∧ gy < m.height then
              m.z_grid (gy * m.width + gx)
            else none)
            ((v / ts) * ((m.width + ts - 1) / ts) + u / ts) ((v % ts) * ts + u % ts)
          = m.z_grid (v * m.width + u) := by
        intro u v hu hv
        dsimp only
        have htspos : 0 < ts := Nat.pos_of_ne_zero hts
        have hux : u / ts < (m.width + ts - 1) / ts := div_lt_ceilDiv htspos hu
        have hvy : v / ts < (m.height + ts - 1) / ts := div_lt_ceilDiv htspos hv
        have htx : ((v / ts) * ((m.width + ts - 1) / ts) + u / ts) % ((m.width + ts - 1) / ts)
            = u / ts := by
          rw [mul_comm (v / ts) ((m.width + ts - 1) / ts), Nat.mul_add_mod,
            Nat.mod_eq_of_lt hux]
        have hty : ((v / ts) * ((m.width + ts - 1) / ts) + u / ts) / ((m.width + ts - 1) / ts)
            = v / ts := by
          rw [mul_comm (v / ts) ((m.width + ts - 1) / ts), Nat.mul_add_div (by omega),
            Nat.div_eq_of_lt hux, Nat.add_zero]
        have hlx : ((v % ts) * ts + u % ts) % ts = u % ts := by
          rw [mul_comm (v % ts) ts, Nat.mul_add_mod, Nat.mod_eq_of_lt (Nat.mod_lt _ htspos)]
        have hly : ((v % ts) * ts + u % ts) / ts = v % ts := by
          rw [mul_comm (v % ts) ts, Nat.mul_add_div htspos,
            Nat.div_eq_of_lt (Nat.mod_lt _ htspos), Nat.add_zero]
        rw [htx, hty, hlx, hly]
        have hgx : u / ts * ts + u % ts = u := by
          rw [mul_comm (u / ts) ts]
          exact Nat.div_add_mod u ts
        have hgy : v / ts * ts + v % ts = v := by
          rw [mul_comm (v / ts) ts]
          exact Nat.div_add_mod v ts
        rw [hgx, hgy, if_pos ⟨hvy, Nat.mod_lt _ htspos, hu, hv⟩]
      by_cases hp : ts &&& (ts - 1) = 0
      · rw [if_pos hp]
        have hpow : ts = 2 ^ ctz ts := eq_two_pow_ctz hts hp
        have hshift : ∀ n : ℕ, n >>> ctz ts = n / ts := by
          intro n
          rw [Nat.shiftRight_eq_div_pow]
          conv_rhs => rw [hpow]
        have hmask : ∀ n : ℕ, n &&& (ts - 1) = n % ts := by
          intro n
          conv_lhs => rw [hpow]
          conv_rhs => rw [hpow]
          exact Nat.and_pow_two_sub_one_eq_mod n (ctz ts)
        rw [hshift, hshift, hmask, hmask]
        exact htiles x.toNat y.toNat hxw hyh
      · rw [if_neg hp]
        exact htiles x.toNat y.toNat hxw hyh

/-- The tiled per-sample evaluator agrees with the flat one. -/
theorem calc_tiled_eq_sparse (m : HeightMap) (ts : ℕ) (tiled : TiledTerrain)
    (tool : SparseTool) (hc : create_tiled_terrain m ts = some tiled)
    (tool_x tool_y : ℤ) (oob_z : ℚ) :
    calculate_tool_height_tiled tiled tool tool_x tool_y oob_z
      = calculate_tool_height_sparse m tool tool_x tool_y oob_z := by
  unfold calculate_tool_height_tiled calculate_tool_height_sparse
  simp only [get_tiled_z_eq m ts tiled hc]

/-- C3. For any terrain, sparse tool, steps, sentinel, and any tile size for
which the tiling exists, the tiled toolpath and the flat toolpath have the
same dimensions and their entries differ by at most `1e-6` at every index
(in the exact model they are equal, so the difference is 0). -/
theorem C3_tiled_matches_flat (m : HeightMap) (tool : SparseTool)
    (x_step y_step : ℕ) (oob_z : ℚ) (ts : ℕ) (tiled : TiledTerrain)
    (hc : create_tiled_terrain m ts = some tiled) :
    (generate_toolpath_tiled tiled tool x_step y_step oob_z).num_scanlines
      = (generate_toolpath_sparse m tool x_step y_step oob_z).num_scanlines ∧
    (generate_toolpath_tiled tiled tool x_step y_step oob_z).points_per_line
      = (generate_toolpath_sparse m tool x_step y_step oob_z).points_per_line ∧
    (generate_toolpath_tiled tiled tool x_step y_step oob_z).path_data.length
      = (generate_toolpath_sparse m tool x_step y_step oob_z).path_data.length ∧
    ∀ (i : ℕ) (a b : ℚ),
      (generate_toolpath_tiled tiled tool x_step y_step oob_z).path_data[i]? = some a →
      (generate_toolpath_sparse m tool x_step y_step oob_z).path_data[i]? = some b →
      |a - b| ≤ (1 / 1000000 : ℚ) := by
  obtain ⟨hW, hH⟩ := create_tiled_dims m ts tiled hc
  have heq : generate_toolpath_tiled tiled tool x_step y_step oob_z
      = generate_toolpath_sparse m tool x_step y_step oob_z := by
    unfold generate_toolpath_tiled generate_toolpath_sparse
    simp only [hW, hH, calc_tiled_eq_sparse m ts tiled tool hc]
  rw [heq]
  refine ⟨rfl, rfl, rfl, ?_⟩
  intro i a b ha hb
  rw [ha] at hb
  have hab : a = b := Option.some.inj hb
  rw [hab, sub_self, abs_zero]
  norm_num

/-- Z values collected by the sparse-tool pass are exactly the non-NaN cell
values of the tool map (over in-range row-major cells). -/
theorem mem_sparseEntries_z (m : HeightMap) (z : ℚ) :
    z ∈ (sparseEntries m).map (fun q => q.2.2) ↔
      ∃ tx ty, tx < m.width ∧ ty < m.height ∧ m.z_grid (ty * m.width + tx) = some z := by
  unfold sparseEntries
  constructor
  · intro hz
    obtain ⟨e, he, hez⟩ := List.mem_map.mp hz
    obtain ⟨ty, hty, he2⟩ := List.mem_flatMap.mp he
    obtain ⟨tx, htx, he3⟩ := List.mem_filterMap.mp he2
    have he4 : (match m.z_grid (ty * m.width + tx) with
        | some z0 => some (((tx : ℤ) - (m.width / 2 : ℕ), (ty : ℤ) - (m.height / 2 : ℕ), z0)
            : ℤ × ℤ × ℚ)
        | none => none) = some e := he3
    refine ⟨tx, ty, List.mem_range.mp htx, List.mem_range.mp hty, ?_⟩
    split at he4
    · rename_i z0 hg
      rw [hg]
      have he5 : e = ((tx : ℤ) - (m.width / 2 : ℕ), (ty : ℤ) - (m.height / 2 : ℕ), z0) :=
        (Option.some.inj he4).symm
      have hz0 : z0 = z := by rw [he5] at hez; exact hez
      rw [hz0]
    · cases he4
  · rintro ⟨tx, ty, htx, hty, hg⟩
    refine List.mem_map.mpr
      ⟨((tx : ℤ) - (m.width / 2 : ℕ), (ty : ℤ) - (m.height / 2 : ℕ), z), ?_, rfl⟩
    refine List.mem_flatMap.mpr ⟨ty, List.mem_range.mpr hty, ?_⟩
    refine List.mem_filterMap.mpr ⟨tx, List.mem_range.mpr htx, ?_⟩
    show (match m.z_grid (ty * m.width + tx) with
        | some z0 => some (((tx : ℤ) - (m.width / 2 : ℕ), (ty : ℤ) - (m.height / 2 : ℕ), z0)
            : ℤ × ℤ × ℚ)
        | none => none)
      = some ((tx : ℤ) - (m.width / 2 : ℕ), (ty : ℤ) - (m.height / 2 : ℕ), z)
    rw [hg]

/-- The X cell of a point is unchanged by shifting every Z of the cloud. -/
theorem cellX_shift (pts : List (ℚ × ℚ × ℚ)) (s : ℚ) (tip : ℚ) (p : ℚ × ℚ × ℚ) :
    cellX (pts.map (fun q => (q.1, q.2.1, q.2.2 - tip))) s (p.1, p.2.1, p.2.2 - tip)
      = cellX pts s p := by
  unfold cellX
  rw [loBy_map, hiBy_map]

/-- The Y cell of a point is unchanged by shifting every Z of the cloud. -/
theorem cellY_shift (pts : List (ℚ × ℚ × ℚ)) (s : ℚ) (tip : ℚ) (p : ℚ × ℚ × ℚ) :
    cellY (pts.map (fun q => (q.1, q.2.1, q.2.2 - tip))) s (p.1, p.2.1, p.2.2 - tip)
      = cellY pts s p := by
  unfold cellY
  rw [loBy_map, hiBy_map]

/-- What `create_height_map_from_points` guarantees about any map it returns:
the computed dimensions, and the latest-writer cell contents. -/
theorem create_height_map_char (pts : List (ℚ × ℚ × ℚ)) (s : ℚ) (m : HeightMap)
    (hm : create_height_map_from_points pts s = some m) :
    m.width = (roundf ((hiBy (fun q => q.1) pts - loBy (fun q => q.1) pts) / s) + 1).toNat ∧
    m.height = (roundf ((hiBy (fun q => q.2.1) pts - loBy (fun q => q.2.1) pts) / s) + 1).toNat ∧
    ∀ i, m.z_grid i
      = Option.map (fun p => p.2.2) (pts.reverse.find?
          (fun p => decide (cellY pts s p * m.width + cellX pts s p = i))) := by
  cases pts with
  | nil => cases hm
  | cons a b =>
      have hrec := Option.some.inj hm
      subst hrec
      refine ⟨rfl, rfl, ?_⟩
      intro i
      dsimp only
      exact foldl_write_eq_none
        (fun p => cellY (a :: b) s p
          * (roundf ((hiBy (fun q => q.1) (a :: b) - loBy (fun q => q.1) (a :: b)) / s)
              + 1).toNat
          + cellX (a :: b) s p)
        (fun p => p.2.2) (a :: b) i

/-- Core of C7, for a cloud that is already tip-shifted: if the cloud is
non-empty, has all Z ≥ 0 with 0 attained, and points sharing a cell share
their Z, then the sparse tool of its height map exists, its Δz values contain
0 and are all non-negative. -/
theorem sparse_tool_tip_zero_aux (pts2 : List (ℚ × ℚ × ℚ)) (s : ℚ) (m : HeightMap)
    (hne2 : pts2 ≠ []) (hs : 0 < s)
    (hm : create_height_map_from_points pts2 s = some m)
    (hmin : ∃ p ∈ pts2, p.2.2 = 0)
    (hnonneg : ∀ p ∈ pts2, 0 ≤ p.2.2)
    (hcell2 : ∀ p ∈ pts2, ∀ q ∈ pts2, cellX pts2 s p = cellX pts2 s q →
      cellY pts2 s p = cellY pts2 s q → p.2.2 = q.2.2) :
    create_sparse_tool_from_map m = some ⟨sparseEntries m⟩ ∧
      (0 : ℚ) ∈ (sparseEntries m).map (fun q => q.2.2) ∧
      ∀ z ∈ (sparseEntries m).map (fun q => q.2.2), 0 ≤ z := by
  obtain ⟨hmw, hmh, hchar⟩ := create_height_map_char _ s m hm
  have hWpos : 0 < m.width := by
    rw [hmw]
    exact gridDim_pos (fun q => q.1) pts2 s hne2 hs
  have hHpos : 0 < m.height := by
    rw [hmh]
    exact gridDim_pos (fun q => q.2.1) pts2 s hne2 hs
  have hcx_lt : ∀ p : ℚ × ℚ × ℚ, cellX pts2 s p < m.width := by
    intro p
    rw [hmw]
    exact clampIdx_lt _ (hmw ▸ hWpos)
  have hcy_lt : ∀ p : ℚ × ℚ × ℚ, cellY pts2 s p < m.height := by
    intro p
    rw [hmh]
    exact clampIdx_lt _ (hmh ▸ hHpos)
  obtain ⟨pm, hpm, hpmz⟩ := hmin
  have hfind : pts2.reverse.find?
        (fun p => decide (cellY pts2 s p * m.width + cellX pts2 s p
          = cellY pts2 s pm * m.width + cellX pts2 s pm)) ≠ none := by
    intro hnone
    have hall := List.find?_eq_none.mp hnone pm (List.mem_reverse.mpr hpm)
    apply hall
    rw [decide_eq_true_eq]
  obtain ⟨q1, hq1⟩ : ∃ q1, pts2.reverse.find?
        (fun p => decide (cellY pts2 s p * m.width + cellX pts2 s p
          = cellY pts2 s pm * m.width + cellX pts2 s pm)) = some q1 := by
    cases hf : pts2.reverse.find?
        (fun p => decide (cellY pts2 s p * m.width + cellX pts2 s p
          = cellY pts2 s pm * m.width + cellX pts2 s pm)) with
    | none => exact absurd hf hfind
    | some v => exact ⟨v, rfl⟩
  have hq1mem : q1 ∈ pts2 := List.mem_reverse.mp (List.mem_of_find?_eq_some hq1)
  have hq1pred := List.find?_some hq1
  rw [decide_eq_true_eq] at hq1pred
  have hcells := (rowmajor_eq_iff (hcx_lt q1) (hcx_lt pm)).mp hq1pred
  have hq1z : q1.2.2 = pm.2.2 := hcell2 q1 hq1mem pm hpm hcells.1 hcells.2
  have hcell0 : m.z_grid (cellY pts2 s pm * m.width + cellX pts2 s pm) = some 0 := by
    rw [hchar, hq1]
    simp only [Option.map_some']
    rw [hq1z, hpmz]
  have hcount : ¬ ((List.range (m.width * m.height)).countP
      (fun i => (m.z_grid i).isSome) = 0) := by
    intro hzero
    have hidx : cellY pts2 s pm * m.width + cellX pts2 s pm < m.width * m.height := by
      have h1 : (cellY pts2 s pm + 1) * m.width
          = cellY pts2 s pm * m.width + m.width := by ring
      have h2 := hcx_lt pm
      have h3 : (cellY pts2 s pm + 1) * m.width ≤ m.height * m.width :=
        Nat.mul_le_mul_right _ (hcy_lt pm)
      have h4 : m.height * m.width = m.width * m.height := Nat.mul_comm _ _
      omega
    have hnone := List.countP_eq_zero.mp hzero
      (cellY pts2 s pm * m.width + cellX pts2 s pm) (List.mem_range.mpr hidx)
    rw [hcell0] at hnone
    simp at hnone
  refine ⟨?_, ?_, ?_⟩
  · unfold create_sparse_tool_from_map
    rw [if_neg hcount]
  · exact (mem_sparseEntries_z m 0).mpr
      ⟨cellX pts2 s pm, cellY pts2 s pm, hcx_lt pm, hcy_lt pm, hcell0⟩
  · intro z hz
    obtain ⟨tx, ty, htx, hty, hcz⟩ := (mem_sparseEntries_z m z).mp hz
    rw [hchar] at hcz
    cases hf : pts2.reverse.find?
        (fun p => decide (cellY pts2 s p * m.width + cellX pts2 s p
          = ty * m.width + tx)) with
    | none =>
        rw [hf] at hcz
        simp at hcz
    | some v =>
        rw [hf] at hcz
        simp only [Option.map_some'] at hcz
        have hvmem : v ∈ pts2 := List.mem_reverse.mp (List.mem_of_find?_eq_some hf)
        rw [← Option.some.inj hcz]
        exact hnonneg v hvmem

/-- C7 (amended). For a non-empty cloud, positive step, and no two points of
the cloud sharing a (clamped) grid cell with different Z values, the tool
pipeline (Z-shift to the tip, height map, sparse tool) yields a sparse tool
whose Δz values contain 0 and are all non-negative — that is, the minimum Δz
is exactly 0 (no NaN entries exist by construction: only non-NaN cells are
collected). -/
theorem C7_amended_sparse_tool_tip_zero (pts : List (ℚ × ℚ × ℚ)) (s : ℚ)
    (hne : pts ≠ []) (hs : 0 < s)
    (hcell : ∀ p ∈ pts, ∀ q ∈ pts, cellX pts s p = cellX pts s q →
      cellY pts s p = cellY pts s q → p.2.2 = q.2.2) :
    ∃ m st, create_tool_height_map pts s = some m ∧
      create_sparse_tool_from_map m = some st ∧
      (0 : ℚ) ∈ st.points.map (fun q => q.2.2) ∧
      ∀ z ∈ st.points.map (fun q => q.2.2), 0 ≤ z := by
  obtain ⟨p0, r0, rfl⟩ : ∃ p0 r0, pts = p0 :: r0 := by
    cases pts with
    | nil => exact absurd rfl hne
    | cons a b => exact ⟨a, b, rfl⟩
  obtain ⟨m, hm⟩ : ∃ m, create_height_map_from_points
      ((p0 :: r0).map (fun q => (q.1, q.2.1, q.2.2 - loBy (fun q => q.2.2) (p0 :: r0)))) s
      = some m := ⟨_, rfl⟩
  have hne2 : ((p0 :: r0).map
      (fun q => (q.1, q.2.1, q.2.2 - loBy (fun q => q.2.2) (p0 :: r0)))) ≠ [] := by
    intro hcon
    exact List.noConfusion hcon
  have hmin : ∃ p ∈ ((p0 :: r0).map
      (fun q => (q.1, q.2.1, q.2.2 - loBy (fun q => q.2.2) (p0 :: r0)))), p.2.2 = 0 := by
    obtain ⟨pm, hpm, hpmz⟩ := loBy_attained (fun q => q.2.2) (l := p0 :: r0) (by
      intro hcon
      exact List.noConfusion hcon)
    refine ⟨(pm.1, pm.2.1, pm.2.2 - loBy (fun q => q.2.2) (p0 :: r0)),
      List.mem_map.mpr ⟨pm, hpm, rfl⟩, ?_⟩
    show pm.2.2 - loBy (fun q => q.2.2) (p0 :: r0) = 0
    rw [← hpmz]
    ring
  have hnonneg : ∀ p ∈ ((p0 :: r0).map
      (fun q => (q.1, q.2.1, q.2.2 - loBy (fun q => q.2.2) (p0 :: r0)))), 0 ≤ p.2.2 := by
    intro p hp
    obtain ⟨a, ha, rfl⟩ := List.mem_map.mp hp
    show 0 ≤ a.2.2 - loBy (fun q => q.2.2) (p0 :: r0)
    have := loBy_le_mem (fun q => q.2.2) ha
    linarith
  have hcell2 : ∀ p ∈ ((p0 :: r0).map
      (fun q => (q.1, q.2.1, q.2.2 - loBy (fun q => q.2.2) (p0 :: r0)))),
      ∀ q ∈ ((p0 :: r0).map
        (fun q => (q.1, q.2.1, q.2.2 - loBy (fun q => q.2.2) (p0 :: r0)))),
      cellX ((p0 :: r0).map
          (fun q => (q.1, q.2.1, q.2.2 - loBy (fun q => q.2.2) (p0 :: r0)))) s p
        = cellX ((p0 :: r0).map
          (fun q => (q.1, q.2.1, q.2.2 - loBy (fun q => q.2.2) (p0 :: r0)))) s q →
      cellY ((p0 :: r0).map
          (fun q => (q.1, q.2.1, q.2.2 - loBy (fun q => q.2.2) (p0 :: r0)))) s p
        = cellY ((p0 :: r0).map
          (fun q => (q.1, q.2.1, q.2.2 - loBy (fun q => q.2.2) (p0 :: r0)))) s q →
      p.2.2 = q.2.2 := by
    intro p hp q hq hx hy
    obtain ⟨a, ha, rfl⟩ := List.mem_map.mp hp
    obtain ⟨b, hb, rfl⟩ := List.mem_map.mp hq
    rw [cellX_shift, cellX_shift] at hx
    rw [cellY_shift, cellY_shift] at hy
    show a.2.2 - loBy (fun q => q.2.2) (p0 :: r0) = b.2.2 - loBy (fun q => q.2.2) (p0 :: r0)
    rw [hcell a ha b hb hx hy]
  obtain ⟨hsp, hzero, hpos⟩ :=
    sparse_tool_tip_zero_aux _ s m hne2 hs hm hmin hnonneg hcell2
  exact ⟨m, ⟨sparseEntries m⟩, hm, hsp, hzero, hpos⟩

/-- mesh-converter-lib.h `Vec3`. -/
structure Vec3 where
  x : ℚ
  y : ℚ
  z : ℚ
deriving DecidableEq

/-- mesh-converter-lib.h `BoundingBox`. -/
structure BoundingBox where
  min : Vec3
  max : Vec3
deriving DecidableEq

/-- mesh-converter-lib.h `Triangle` with the attributes `convert_to_point_mesh`
precomputes (the unused `min_z` field of the C struct is never written in
mesh-converter-lib.c and is omitted). -/
structure Triangle where
  v0 : Vec3
  v1 : Vec3
  v2 : Vec3
  bbox_min_x : ℚ
  bbox_max_x : ℚ
  bbox_min_y : ℚ
  bbox_max_y : ℚ
  normal_z : ℚ
deriving DecidableEq

/-- The triangle-record precompute of `convert_to_point_mesh` (lines 237-277):
2D bounding box by sequential min/max over the three vertices, and the Z
component of the unnormalised face normal. -/
def mkTriangle (a b c : Vec3) : Triangle :=
  { v0 := a
    v1 := b
    v2 := c
    bbox_min_x := min (min a.x b.x) c.x
    bbox_max_x := max (max a.x b.x) c.x
    bbox_min_y := min (min a.y b.y) c.y
    bbox_max_y := max (max a.y b.y) c.y
    normal_z := (b.x - a.x) * (c.y - a.y) - (b.y - a.y) * (c.x - a.x) }

/-- mesh-converter-lib.c `calculate_bounds` (lines 31-48): fold min/max over
every vertex starting from the ±1e10 sentinels. -/
def calculate_bounds (vs : List Vec3) : BoundingBox :=
  vs.foldl
    (fun b v =>
      { min := { x := min b.min.x v.x, y := min b.min.y v.y, z := min b.min.z v.z }
        max := { x := max b.max.x v.x, y := max b.max.y v.y, z := max b.max.z v.z } })
    { min := { x := 10000000000, y := 10000000000, z := 10000000000 }
      max := { x := -10000000000, y := -10000000000, z := -10000000000 } }

/-- mesh-converter-lib.c `ray_triangle_intersect` (lines 61-127):
Möller–Trumbore with the 2D bbox early rejection; `EPSILON = 1e-7`. Returns
the intersection point on success. -/
def ray_triangle_intersect (ray_origin ray_dir : Vec3) (tri : Triangle) :
    Option Vec3 :=
  if ¬ (ray_origin.x ≥ tri.bbox_min_x ∧ ray_origin.x ≤ tri.bbox_max_x ∧
        ray_origin.y ≥ tri.bbox_min_y ∧ ray_origin.y ≤ tri.bbox_max_y) then
    none
  else
    let e1x := tri.v1.x - tri.v0.x
    let e1y := tri.v1.y - tri.v0.y
    let e1z := tri.v1.z - tri.v0.z
    let e2x := tri.v2.x - tri.v0.x
    let e2y := tri.v2.y - tri.v0.y
    let e2z := tri.v2.z - tri.v0.z
    let hx := ray_dir.y * e2z - ray_dir.z * e2y
    let hy := ray_dir.z * e2x - ray_dir.x * e2z
    let hz := ray_dir.x * e2y - ray_dir.y * e2x
    let a := e1x * hx + e1y * hy + e1z * hz
    if a > -(1/10000000) ∧ a < 1/10000000 then none
    else
      let f := 1 / a
      let sx := ray_origin.x - tri.v0.x
      let sy := ray_origin.y - tri.v0.y
      let sz := ray_origin.z - tri.v0.z
      let u := f * (sx * hx + sy * hy + sz * hz)
      if u < 0 ∨ u > 1 then none
      else
        let qx := sy * e1z - sz * e1y
        let qy := sz * e1x - sx * e1z
        let qz := sx * e1y - sy * e1x
        let v := f * (ray_dir.x * qx + ray_dir.y * qy + ray_dir.z * qz)
        if v < 0 ∨ u + v > 1 then none
        else
          let t := f * (e2x * qx + e2y * qy + e2z * qz)
          if t > 1/10000000 then
            some { x := ray_origin.x + ray_dir.x * t
                   y := ray_origin.y + ray_dir.y * t
                   z := ray_origin.z + ray_dir.z * t }
          else none

/-- The XY triangle index of mesh-converter-lib.c (`XYGrid`): resolution,
cell sizes, origin, and each cell's triangle-index list. -/
structure XYGrid where
  res_x : ℕ
  res_y : ℕ
  cell_size_x : ℚ
  cell_size_y : ℚ
  grid_min_x : ℚ
  grid_min_y : ℚ
  cells : ℕ → List ℕ

/-- The sequential resolution clamp of `create_xy_grid`:
`if (res < 10) res = 10; if (res > 100) res = 100;`. -/
def clampResolution (r : ℤ) : ℤ :=
  if r < 10 then 10 else if r > 100 then 100 else r

/-- mesh-converter-lib.c `create_xy_grid` (lines 139-193): per-axis resolution
`(int)(range / 5) + 1` clamped into `[10, 100]`, cell size `range / res`, and
each triangle that passes the face filter appended to every cell its 2D bbox
rectangle overlaps (min cell clamped below to 0, max cell clamped above to
`res - 1`). `cells` is the functional read-back: cell `cy * res_x + cx` holds
the indices (ascending, the C insertion order) of the kept triangles whose
clamped cell rectangle contains `(cx, cy)`. -/
def create_xy_grid (tris : List Triangle) (bounds : BoundingBox)
    (filter_mode : ℕ) : XYGrid :=
  let x_range := bounds.max.x - bounds.min.x
  let y_range := bounds.max.y - bounds.min.y
  let res_x := (clampResolution (truncQ (x_range / 5) + 1)).toNat
  let res_y := (clampResolution (truncQ (y_range / 5) + 1)).toNat
  let cell_size_x := x_range / (res_x : ℚ)
  let cell_size_y := y_range / (res_y : ℚ)
  { res_x := res_x
    res_y := res_y
    cell_size_x := cell_size_x
    cell_size_y := cell_size_y
    grid_min_x := bounds.min.x
    grid_min_y := bounds.min.y
    cells := fun cell_idx =>
      (List.range tris.length).filter (fun t =>
        match tris[t]? with
        | none => false
        | some tri =>
          if filter_mode = 0 ∧ tri.normal_z ≤ 0 then false
          else if filter_mode = 1 ∧ tri.normal_z ≥ 0 then false
          else
            let min_cell_x := truncQ ((tri.bbox_min_x - bounds.min.x) / cell_size_x)
            let max_cell_x := truncQ ((tri.bbox_max_x - bounds.min.x) / cell_size_x)
            let min_cell_y := truncQ ((tri.bbox_min_y - bounds.min.y) / cell_size_y)
            let max_cell_y := truncQ ((tri.bbox_max_y - bounds.min.y) / cell_size_y)
            let min_cell_x := if min_cell_x < 0 then 0 else min_cell_x
            let max_cell_x := if max_cell_x ≥ (res_x : ℤ) then (res_x : ℤ) - 1 else max_cell_x
            let min_cell_y := if min_cell_y < 0 then 0 else min_cell_y
            let max_cell_y := if max_cell_y ≥ (res_y : ℤ) then (res_y : ℤ) - 1 else max_cell_y
            decide (min_cell_x ≤ ((cell_idx % res_x : ℕ) : ℤ)
              ∧ ((cell_idx % res_x : ℕ) : ℤ) ≤ max_cell_x
              ∧ min_cell_y ≤ ((cell_idx / res_x : ℕ) : ℤ)
              ∧ ((cell_idx / res_x : ℕ) : ℤ) ≤ max_cell_y)) }

/-- The per-ray best-intersection selection of `convert_to_point_mesh`
(lines 304-341): fold over the query cell's triangles; UPWARD (`filter = 0`)
starts from the `-1e10` sentinel and keeps the strictly highest Z, the other
modes start from `+1e10` and keep the strictly lowest Z; `none` when the
found flag never gets set. -/
def bestZInCell (filter_mode : ℕ) (cellTris : List Triangle)
    (ray_origin ray_dir : Vec3) : Option Vec3 :=
  cellTris.foldl
    (fun best tri =>
      match ray_triangle_intersect ray_origin ray_dir tri with
      | none => best
      | some p =>
        let bz : ℚ := match best with
          | none => if filter_mode = 0 then -10000000000 else 10000000000
          | some b => b.z
        if filter_mode = 0 then
          if p.z > bz then some p else best
        else
          if p.z < bz then some p else best)
    none

/-- The raster lattice `for (q = lo; q <= hi; q += step)` of
`convert_to_point_mesh`, for `step > 0` (the C loop does not terminate for
`step <= 0`; the model returns `[]` there). -/
def rasterPoints (lo hi step : ℚ) : List ℚ :=
  if step ≤ 0 then []
  else (List.range ((((hi - lo) / step).floor + 1).toNat)).map (fun i => lo + i * step)

/-- mesh-converter-lib.c `convert_to_point_mesh` (lines 223-350): bounds,
triangle precompute, XY grid with face filter, then for each lattice point
(outer X, inner Y) cast a `+z` ray from below the mesh, query the grid cell,
and emit the best intersection when one exists. -/
def convert_to_point_mesh (input : List (Vec3 × Vec3 × Vec3)) (step_size : ℚ)
    (filter_mode : ℕ) : List Vec3 :=
  let bounds := calculate_bounds (input.flatMap (fun t => [t.1, t.2.1, t.2.2]))
  let tris := input.map (fun t => mkTriangle t.1 t.2.1 t.2.2)
  let grid := create_xy_grid tris bounds filter_mode
  let xs := rasterPoints bounds.min.x bounds.max.x step_size
  let ys := rasterPoints bounds.min.y bounds.max.y step_size
  xs.flatMap (fun x => ys.filterMap (fun y =>
    let ray_origin : Vec3 := { x := x, y := y, z := bounds.min.z - 1 }
    let cell_x := clampIdx (truncQ ((x - grid.grid_min_x) / grid.cell_size_x)) grid.res_x
    let cell_y := clampIdx (truncQ ((y - grid.grid_min_y) / grid.cell_size_y)) grid.res_y
    let cellTris := (grid.cells (cell_y * grid.res_x + cell_x)).filterMap
      (fun t => tris[t]?)
    bestZInCell filter_mode cellTris ray_origin { x := 0, y := 0, z := 1 }))

/-- One step of the best-intersection fold of `convert_to_point_mesh`. -/
def bestStep (filter_mode : ℕ) (best : Option Vec3) (p : Vec3) : Option Vec3 :=
  let bz : ℚ := match best with
    | none => if filter_mode = 0 then -10000000000 else 10000000000
    | some b => b.z
  if filter_mode = 0 then (if p.z > bz then some p else best)
  else (if p.z < bz then some p else best)

/-- The strict-comparison keep rules of the selection loop. -/
def pickBest (filter_mode : ℕ) (a p : Vec3) : Vec3 :=
  if filter_mode = 0 then (if p.z > a.z then p else a)
  else (if p.z < a.z then p else a)

theorem bestZInCell_eq_foldl (filter_mode : ℕ) (cellTris : List Triangle)
    (o d : Vec3) :
    bestZInCell filter_mode cellTris o d
      = (cellTris.filterMap (ray_triangle_intersect o d)).foldl
          (bestStep filter_mode) none := by
  unfold bestZInCell
  rw [← foldl_skip_none (ray_triangle_intersect o d) (bestStep filter_mode) cellTris none]
  apply List.foldl_ext
  intro a tri _
  cases h : ray_triangle_intersect o d tri <;> simp [h, bestStep]

theorem bestStep_some (filter_mode : ℕ) (b p : Vec3) :
    bestStep filter_mode (some b) p = some (pickBest filter_mode b p) := by
  unfold bestStep pickBest
  by_cases hfm : filter_mode = 0
  · simp only [if_pos hfm]
    by_cases hz : p.z > b.z
    · simp only [if_pos hz]
    · simp only [if_neg hz]
  · simp only [if_neg hfm]
    by_cases hz : p.z < b.z
    · simp only [if_pos hz]
    · simp only [if_neg hz]

theorem foldl_bestStep_some (filter_mode : ℕ) (l : List Vec3) (b : Vec3) :
    l.foldl (bestStep filter_mode) (some b)
      = some (l.foldl (pickBest filter_mode) b) := by
  induction l generalizing b with
  | nil => rfl
  | cons p r ih => simp only [List.foldl_cons, bestStep_some, ih]

theorem pickBest_cases (filter_mode : ℕ) (a p : Vec3) :
    pickBest filter_mode a p = a ∨ pickBest filter_mode a p = p := by
  unfold pickBest
  by_cases hfm : filter_mode = 0
  · rw [if_pos hfm]
    by_cases hz : p.z > a.z
    · rw [if_pos hz]
      exact Or.inr rfl
    · rw [if_neg hz]
      exact Or.inl rfl
  · rw [if_neg hfm]
    by_cases hz : p.z < a.z
    · rw [if_pos hz]
      exact Or.inr rfl
    · rw [if_neg hz]
      exact Or.inl rfl

theorem foldl_pickBest_mem (filter_mode : ℕ) (l : List Vec3) (b : Vec3) :
    l.foldl (pickBest filter_mode) b = b ∨ l.foldl (pickBest filter_mode) b ∈ l := by
  induction l generalizing b with
  | nil => exact Or.inl rfl
  | cons p r ih =>
      rw [List.foldl_cons]
      rcases ih (pickBest filter_mode b p) with h | h
      · rcases pickBest_cases filter_mode b p with hc | hc
        · exact Or.inl (h.trans hc)
        · exact Or.inr (List.mem_cons.mpr (Or.inl (h.trans hc)))
      · exact Or.inr (List.mem_cons_of_mem _ h)

theorem foldl_pickUp_ge_init (l : List Vec3) (b : Vec3) :
    b.z ≤ (l.foldl (pickBest 0) b).z := by
  induction l generalizing b with
  | nil => exact le_rfl
  | cons p r ih =>
      rw [List.foldl_cons]
      refine le_trans ?_ (ih (pickBest 0 b p))
      unfold pickBest
      rw [if_pos rfl]
      by_cases hz : p.z > b.z
      · rw [if_pos hz]
        exact le_of_lt hz
      · rw [if_neg hz]

theorem foldl_pickUp_ge_mem (l : List Vec3) (b : Vec3) {q : Vec3} (hq : q ∈ l) :
    q.z ≤ (l.foldl (pickBest 0) b).z := by
  induction l generalizing b with
  | nil => cases hq
  | cons p r ih =>
      rw [List.foldl_cons]
      rcases List.mem_cons.mp hq with h | h
      · subst h
        refine le_trans ?_ (foldl_pickUp_ge_init r (pickBest 0 b q))
        unfold pickBest
        rw [if_pos rfl]
        by_cases hz : q.z > b.z
        · rw [if_pos hz]
        · rw [if_neg hz]
          exact le_of_not_lt hz
      · exact ih _ h

theorem foldl_pickDown_le_init {filter_mode : ℕ} (hfm : filter_mode ≠ 0)
    (l : List Vec3) (b : Vec3) :
    (l.foldl (pickBest filter_mode) b).z ≤ b.z := by
  induction l generalizing b with
  | nil => exact le_rfl
  | cons p r ih =>
      rw [List.foldl_cons]
      refine le_trans (ih (pickBest filter_mode b p)) ?_
      unfold pickBest
      rw [if_neg hfm]
      by_cases hz : p.z < b.z
      · rw [if_pos hz]
        exact le_of_lt hz
      · rw [if_neg hz]

theorem foldl_pickDown_le_mem {filter_mode : ℕ} (hfm : filter_mode ≠ 0)
    (l : List Vec3) (b : Vec3) {q : Vec3} (hq : q ∈ l) :
    (l.foldl (pickBest filter_mode) b).z ≤ q.z := by
  induction l generalizing b with
  | nil => cases hq
  | cons p r ih =>
      rw [List.foldl_cons]
      rcases List.mem_cons.mp hq with h | h
      · subst h
        refine le_trans (foldl_pickDown_le_init hfm r (pickBest filter_mode b q)) ?_
        unfold pickBest
        rw [if_neg hfm]
        by_cases hz : q.z < b.z
        · rw [if_pos hz]
        · rw [if_neg hz]
          exact le_of_not_lt hz
      · exact ih _ h

/-- C2 (amended). The sampler's per-ray best-Z rule: UPWARD (filter 0)
selects the maximum-Z intersection among the query cell's triangles, while
DOWNWARD (filter 1) and NONE (filter 2) both select the minimum; a ray with
no intersection yields no point. (Stated for intersections inside the C
sentinel range `(-1e10, 1e10)`, which the strict-comparison loop needs.) -/
theorem C2_amended_best_z_rule (filter_mode : ℕ) (cellTris : List Triangle)
    (o d : Vec3)
    (hr : ∀ p ∈ cellTris.filterMap (ray_triangle_intersect o d),
      -10000000000 < p.z ∧ p.z < 10000000000) :
    (bestZInCell filter_mode cellTris o d = none ↔
      cellTris.filterMap (ray_triangle_intersect o d) = []) ∧
    ∀ p, bestZInCell filter_mode cellTris o d = some p →
      p ∈ cellTris.filterMap (ray_triangle_intersect o d) ∧
      (filter_mode = 0 →
        ∀ q ∈ cellTris.filterMap (ray_triangle_intersect o d), q.z ≤ p.z) ∧
      (filter_mode ≠ 0 →
        ∀ q ∈ cellTris.filterMap (ray_triangle_intersect o d), p.z ≤ q.z) := by
  rw [bestZInCell_eq_foldl]
  cases hl : cellTris.filterMap (ray_triangle_intersect o d) with
  | nil =>
      refine ⟨by simp, ?_⟩
      intro p hp
      cases hp
  | cons h rest =>
      have hh := hr h (hl ▸ List.mem_cons_self h rest)
      have hstep : bestStep filter_mode none h = some h := by
        unfold bestStep
        by_cases hfm : filter_mode = 0
        · simp only [if_pos hfm]
          rw [if_pos (show h.z > -10000000000 from hh.1)]
        · simp only [if_neg hfm]
          rw [if_pos (show h.z < 10000000000 from hh.2)]
      rw [List.foldl_cons, hstep, foldl_bestStep_some]
      constructor
      · constructor
        · intro hcon
          cases hcon
        · intro hcon
          cases hcon
      · intro p hp
        have hpv : p = rest.foldl (pickBest filter_mode) h := (Option.some.inj hp).symm
        subst hpv
        refine ⟨?_, ?_, ?_⟩
        · rcases foldl_pickBest_mem filter_mode rest h with hm | hm
          · rw [hm]
            exact List.mem_cons_self h rest
          · exact List.mem_cons_of_mem _ hm
        · intro hfm q hq
          subst hfm
          rcases List.mem_cons.mp hq with hq1 | hq1
          · subst hq1
            exact foldl_pickUp_ge_init rest q
          · exact foldl_pickUp_ge_mem rest h hq1
        · intro hfm q hq
          rcases List.mem_cons.mp hq with hq1 | hq1
          · subst hq1
            exact foldl_pickDown_le_init hfm rest q
          · exact foldl_pickDown_le_mem hfm rest h hq1

/-- Counterexample to C2 as stated: with filter NONE (mode 2), for the first
ray of a two-plate mesh (plates at Z = 1 and Z = 5), both plates intersect
the ray but the sampler emits the point at Z = 1 — the minimum, not the
claimed maximum. -/
theorem C2_counterexample_none_selects_min :
    (convert_to_point_mesh
        [(⟨0,0,1⟩, ⟨2,0,1⟩, ⟨0,2,1⟩), (⟨0,0,5⟩, ⟨2,0,5⟩, ⟨0,2,5⟩)] 1 2).head?
      = some ⟨0,0,1⟩ ∧
    [mkTriangle ⟨0,0,1⟩ ⟨2,0,1⟩ ⟨0,2,1⟩,
      mkTriangle ⟨0,0,5⟩ ⟨2,0,5⟩ ⟨0,2,5⟩].filterMap
        (ray_triangle_intersect ⟨0,0,0⟩ ⟨0,0,1⟩) = [⟨0,0,1⟩, ⟨0,0,5⟩] ∧
    bestZInCell 2
      [mkTriangle ⟨0,0,1⟩ ⟨2,0,1⟩ ⟨0,2,1⟩, mkTriangle ⟨0,0,5⟩ ⟨2,0,5⟩ ⟨0,2,5⟩]
      ⟨0,0,0⟩ ⟨0,0,1⟩ = some ⟨0,0,1⟩ ∧
    ¬ ((5:ℚ) ≤ 1) := by
  refine ⟨by decide, by decide, by decide, by decide⟩

/-- C8 (amended). The triangle-index resolution per axis is
`clamp(trunc(range/5) + 1, 10, 100)` — truncation toward zero, not rounding —
and the cell size is the range divided by that resolution. -/
theorem C8_amended_grid_resolution (tris : List Triangle) (bounds : BoundingBox)
    (filter_mode : ℕ) :
    ((create_xy_grid tris bounds filter_mode).res_x : ℤ)
      = max 10 (min 100 (truncQ ((bounds.max.x - bounds.min.x) / 5) + 1)) ∧
    ((create_xy_grid tris bounds filter_mode).res_y : ℤ)
      = max 10 (min 100 (truncQ ((bounds.max.y - bounds.min.y) / 5) + 1)) ∧
    (create_xy_grid tris bounds filter_mode).cell_size_x
      = (bounds.max.x - bounds.min.x)
        / ((create_xy_grid tris bounds filter_mode).res_x : ℚ) ∧
    (create_xy_grid tris bounds filter_mode).cell_size_y
      = (bounds.max.y - bounds.min.y)
        / ((create_xy_grid tris bounds filter_mode).res_y : ℚ) := by
  have hclamp : ∀ r : ℤ, ((clampResolution r).toNat : ℤ) = max 10 (min 100 r) := by
    intro r
    unfold clampResolution
    by_cases h1 : r < 10
    · rw [if_pos h1]
      omega
    · rw [if_neg h1]
      by_cases h2 : r > 100
      · rw [if_pos h2]
        omega
      · rw [if_neg h2]
        omega
  exact ⟨hclamp _, hclamp _, rfl, rfl⟩

/-- Counterexample to C8 as stated: for an X range of 47.5 the code computes
`res_x = clamp((int)(47.5/5) + 1) = clamp(10) = 10`, while the claimed
formula gives `clamp(round(47.5/5) + 1) = clamp(11) = 11`. -/
theorem C8_counterexample_trunc_vs_round :
    (create_xy_grid [] ⟨⟨0,0,0⟩, ⟨95/2,0,0⟩⟩ 2).res_x = 10 ∧
    max 10 (min 100 (roundf (((95/2 : ℚ) - 0) / 5) + 1)) = 11 ∧
    (10 : ℤ) ≠ 11 := by
  refine ⟨by decide, by decide, by decide⟩

/-- Counterexample to C7 as stated: two tool points in the same grid cell,
the tip (Z = 0) written first and overwritten by Z = 5. The sparse tool's Δz
list is `[5]`: its minimum is not 0. -/
theorem C7_counterexample_tip_overwritten :
    ((create_tool_height_map [((0:ℚ),(0:ℚ),(0:ℚ)), ((0:ℚ),(0:ℚ),(5:ℚ))] 1).bind
        create_sparse_tool_from_map).map (fun st => st.points.map (fun q => q.2.2))
      = some [5] ∧ ¬ ((0:ℚ) ∈ [(5:ℚ)]) := by
  refine ⟨by decide, by decide⟩

/-- Witness for C2 (amended): the two-plate cell at the origin ray, filter
NONE, hypotheses discharged by computation. -/
theorem C2_amended_witness :
    (∀ p ∈ [mkTriangle ⟨0,0,1⟩ ⟨2,0,1⟩ ⟨0,2,1⟩,
        mkTriangle ⟨0,0,5⟩ ⟨2,0,5⟩ ⟨0,2,5⟩].filterMap
        (ray_triangle_intersect ⟨0,0,0⟩ ⟨0,0,1⟩),
      -10000000000 < p.z ∧ p.z < 10000000000) ∧
    ((bestZInCell 2 [mkTriangle ⟨0,0,1⟩ ⟨2,0,1⟩ ⟨0,2,1⟩,
          mkTriangle ⟨0,0,5⟩ ⟨2,0,5⟩ ⟨0,2,5⟩] ⟨0,0,0⟩ ⟨0,0,1⟩ = none ↔
        [mkTriangle ⟨0,0,1⟩ ⟨2,0,1⟩ ⟨0,2,1⟩,
          mkTriangle ⟨0,0,5⟩ ⟨2,0,5⟩ ⟨0,2,5⟩].filterMap
          (ray_triangle_intersect ⟨0,0,0⟩ ⟨0,0,1⟩) = []) ∧
      ∀ p, bestZInCell 2 [mkTriangle ⟨0,0,1⟩ ⟨2,0,1⟩ ⟨0,2,1⟩,
          mkTriangle ⟨0,0,5⟩ ⟨2,0,5⟩ ⟨0,2,5⟩] ⟨0,0,0⟩ ⟨0,0,1⟩ = some p →
        p ∈ [mkTriangle ⟨0,0,1⟩ ⟨2,0,1⟩ ⟨0,2,1⟩,
            mkTriangle ⟨0,0,5⟩ ⟨2,0,5⟩ ⟨0,2,5⟩].filterMap
            (ray_triangle_intersect ⟨0,0,0⟩ ⟨0,0,1⟩) ∧
        ((2:ℕ) = 0 → ∀ q ∈ [mkTriangle ⟨0,0,1⟩ ⟨2,0,1⟩ ⟨0,2,1⟩,
            mkTriangle ⟨0,0,5⟩ ⟨2,0,5⟩ ⟨0,2,5⟩].filterMap
            (ray_triangle_intersect ⟨0,0,0⟩ ⟨0,0,1⟩), q.z ≤ p.z) ∧
        ((2:ℕ) ≠ 0 → ∀ q ∈ [mkTriangle ⟨0,0,1⟩ ⟨2,0,1⟩ ⟨0,2,1⟩,
            mkTriangle ⟨0,0,5⟩ ⟨2,0,5⟩ ⟨0,2,5⟩].filterMap
            (ray_triangle_intersect ⟨0,0,0⟩ ⟨0,0,1⟩), p.z ≤ q.z)) :=
  ⟨by decide, C2_amended_best_z_rule 2
    [mkTriangle ⟨0,0,1⟩ ⟨2,0,1⟩ ⟨0,2,1⟩, mkTriangle ⟨0,0,5⟩ ⟨2,0,5⟩ ⟨0,2,5⟩]
    ⟨0,0,0⟩ ⟨0,0,1⟩ (by decide)⟩

/-- Witness for C3: a 1 by 1 terrain tiled with tile size 2, a one-point
tool, both step sizes 1. -/
theorem C3_witness :
    ∃ tiled, create_tiled_terrain (HeightMap.mk (fun _ => some 0) 1 1 0 0) 2
        = some tiled ∧
      ((generate_toolpath_tiled tiled (SparseTool.mk [((0:ℤ),(0:ℤ),(0:ℚ))]) 1 1 (-5)).num_scanlines
        = (generate_toolpath_sparse (HeightMap.mk (fun _ => some 0) 1 1 0 0)
            (SparseTool.mk [((0:ℤ),(0:ℤ),(0:ℚ))]) 1 1 (-5)).num_scanlines ∧
      (generate_toolpath_tiled tiled (SparseTool.mk [((0:ℤ),(0:ℤ),(0:ℚ))]) 1 1 (-5)).points_per_line
        = (generate_toolpath_sparse (HeightMap.mk (fun _ => some 0) 1 1 0 0)
            (SparseTool.mk [((0:ℤ),(0:ℤ),(0:ℚ))]) 1 1 (-5)).points_per_line ∧
      (generate_toolpath_tiled tiled (SparseTool.mk [((0:ℤ),(0:ℤ),(0:ℚ))]) 1 1 (-5)).path_data.length
        = (generate_toolpath_sparse (HeightMap.mk (fun _ => some 0) 1 1 0 0)
            (SparseTool.mk [((0:ℤ),(0:ℤ),(0:ℚ))]) 1 1 (-5)).path_data.length ∧
      ∀ (i : ℕ) (a b : ℚ),
        (generate_toolpath_tiled tiled (SparseTool.mk [((0:ℤ),(0:ℤ),(0:ℚ))]) 1 1 (-5)).path_data[i]?
          = some a →
        (generate_toolpath_sparse (HeightMap.mk (fun _ => some 0) 1 1 0 0)
            (SparseTool.mk [((0:ℤ),(0:ℤ),(0:ℚ))]) 1 1 (-5)).path_data[i]? = some b →
        |a - b| ≤ (1 / 1000000 : ℚ)) :=
  ⟨_, rfl, C3_tiled_matches_flat (HeightMap.mk (fun _ => some 0) 1 1 0 0)
    (SparseTool.mk [((0:ℤ),(0:ℤ),(0:ℚ))]) 1 1 (-5) 2 _ rfl⟩

/-- Witness for C4: a 1 by 1 terrain and a 1 by 1 tool map with one cell. -/
theorem C4_witness :
    ∃ st, create_sparse_tool_from_map (HeightMap.mk (fun _ => some 0) 1 1 0 0)
        = some st ∧
      (generate_toolpath (HeightMap.mk (fun _ => some 1) 1 1 1 1)
          (HeightMap.mk (fun _ => some 0) 1 1 0 0) 1 1 0
        = some (generate_toolpath_sparse (HeightMap.mk (fun _ => some 1) 1 1 1 1)
            st 1 1 0) ∧
      (generate_toolpath_sparse (HeightMap.mk (fun _ => some 1) 1 1 1 1) st 1 1 0).path_data
        = ( generate_toolpath_partial (HeightMap.mk (fun _ => some 1) 1 1 1 1)
              st 1 1 0 ((0 : ℕ) : ℤ)
              (((((HeightMap.mk (fun _ => some 1) 1 1 1 1).height + 1 - 1) / 1) / 2 : ℕ) : ℤ)).path_data
          ++ ( generate_toolpath_partial (HeightMap.mk (fun _ => some 1) 1 1 1 1)
              st 1 1 0
              (((((HeightMap.mk (fun _ => some 1) 1 1 1 1).height + 1 - 1) / 1) / 2 : ℕ) : ℤ)
              ((((HeightMap.mk (fun _ => some 1) 1 1 1 1).height + 1 - 1) / 1 : ℕ) : ℤ)).path_data ∧
      (generate_toolpath_sparse (HeightMap.mk (fun _ => some 1) 1 1 1 1) st 1 1 0).num_scanlines
        = ( generate_toolpath_partial (HeightMap.mk (fun _ => some 1) 1 1 1 1)
              st 1 1 0 ((0 : ℕ) : ℤ)
              (((((HeightMap.mk (fun _ => some 1) 1 1 1 1).height + 1 - 1) / 1) / 2 : ℕ) : ℤ)).num_scanlines
          + ( generate_toolpath_partial (HeightMap.mk (fun _ => some 1) 1 1 1 1)
              st 1 1 0
              (((((HeightMap.mk (fun _ => some 1) 1 1 1 1).height + 1 - 1) / 1) / 2 : ℕ) : ℤ)
              ((((HeightMap.mk (fun _ => some 1) 1 1 1 1).height + 1 - 1) / 1 : ℕ) : ℤ)).num_scanlines) :=
  ⟨_, rfl, C4_generate_eq_concat_of_partials (HeightMap.mk (fun _ => some 1) 1 1 1 1)
    (HeightMap.mk (fun _ => some 0) 1 1 0 0) 1 1 0 _ rfl⟩

/-- Witness for C5: the one-point cloud at the origin with unit step. -/
theorem C5_witness :
    (([((0:ℚ),(0:ℚ),(0:ℚ))] : List (ℚ × ℚ × ℚ)) ≠ [] ∧ (0:ℚ) < 1) ∧
    (∃ m, create_height_map_from_points [((0:ℚ),(0:ℚ),(0:ℚ))] 1 = some m ∧
      (m.width : ℤ) = roundf ((hiBy (fun q => q.1) [((0:ℚ),(0:ℚ),(0:ℚ))]
        - loBy (fun q => q.1) [((0:ℚ),(0:ℚ),(0:ℚ))]) / 1) + 1 ∧
      (m.height : ℤ) = roundf ((hiBy (fun q => q.2.1) [((0:ℚ),(0:ℚ),(0:ℚ))]
        - loBy (fun q => q.2.1) [((0:ℚ),(0:ℚ),(0:ℚ))]) / 1) + 1 ∧
      (∀ gx gy, gx < m.width → gy < m.height →
        m.z_grid (gy * m.width + gx) =
          Option.map (fun p => p.2.2)
            (([((0:ℚ),(0:ℚ),(0:ℚ))] : List (ℚ × ℚ × ℚ)).reverse.find?
              (fun p => decide (cellX [((0:ℚ),(0:ℚ),(0:ℚ))] 1 p = gx
                ∧ cellY [((0:ℚ),(0:ℚ),(0:ℚ))] 1 p = gy)))) ∧
      create_height_map_from_points ([] : List (ℚ × ℚ × ℚ)) 1 = none) :=
  ⟨⟨by decide, by decide⟩,
    C5_create_height_map_spec [((0:ℚ),(0:ℚ),(0:ℚ))] 1 (by decide) (by decide)⟩

/-- Witness for C6: a 1 by 1 terrain, a one-point tool, both steps 1. -/
theorem C6_witness :
    ((1:ℕ) ≤ 1 ∧ (1:ℕ) ≤ 1) ∧
    (((generate_toolpath_sparse (HeightMap.mk (fun _ => some 3) 1 1 3 3)
          (SparseTool.mk [((0:ℤ),(0:ℤ),(0:ℚ))]) 1 1 (-9)).points_per_line : ℤ)
        = ⌈((HeightMap.mk (fun _ => some 3) 1 1 3 3).width : ℚ) / ((1:ℕ) : ℚ)⌉ ∧
      ((generate_toolpath_sparse (HeightMap.mk (fun _ => some 3) 1 1 3 3)
          (SparseTool.mk [((0:ℤ),(0:ℤ),(0:ℚ))]) 1 1 (-9)).num_scanlines : ℤ)
        = ⌈((HeightMap.mk (fun _ => some 3) 1 1 3 3).height : ℚ) / ((1:ℕ) : ℚ)⌉ ∧
      (generate_toolpath_sparse (HeightMap.mk (fun _ => some 3) 1 1 3 3)
          (SparseTool.mk [((0:ℤ),(0:ℤ),(0:ℚ))]) 1 1 (-9)).path_data.length
        = (generate_toolpath_sparse (HeightMap.mk (fun _ => some 3) 1 1 3 3)
            (SparseTool.mk [((0:ℤ),(0:ℤ),(0:ℚ))]) 1 1 (-9)).num_scanlines
          * (generate_toolpath_sparse (HeightMap.mk (fun _ => some 3) 1 1 3 3)
            (SparseTool.mk [((0:ℤ),(0:ℤ),(0:ℚ))]) 1 1 (-9)).points_per_line ∧
      (∀ sl pt,
        sl < (generate_toolpath_sparse (HeightMap.mk (fun _ => some 3) 1 1 3 3)
            (SparseTool.mk [((0:ℤ),(0:ℤ),(0:ℚ))]) 1 1 (-9)).num_scanlines →
        pt < (generate_toolpath_sparse (HeightMap.mk (fun _ => some 3) 1 1 3 3)
            (SparseTool.mk [((0:ℤ),(0:ℤ),(0:ℚ))]) 1 1 (-9)).points_per_line →
        (generate_toolpath_sparse (HeightMap.mk (fun _ => some 3) 1 1 3 3)
            (SparseTool.mk [((0:ℤ),(0:ℤ),(0:ℚ))]) 1 1 (-9)).path_data[
            sl * (generate_toolpath_sparse (HeightMap.mk (fun _ => some 3) 1 1 3 3)
              (SparseTool.mk [((0:ℤ),(0:ℤ),(0:ℚ))]) 1 1 (-9)).points_per_line + pt]?
          = some (calculate_tool_height_sparse (HeightMap.mk (fun _ => some 3) 1 1 3 3)
              (SparseTool.mk [((0:ℤ),(0:ℤ),(0:ℚ))]) ((pt * 1 : ℕ) : ℤ)
              ((sl * 1 : ℕ) : ℤ) (-9)))) :=
  ⟨⟨le_refl 1, le_refl 1⟩,
    C6_toolpath_dims_and_raster_order (HeightMap.mk (fun _ => some 3) 1 1 3 3)
      (SparseTool.mk [((0:ℤ),(0:ℤ),(0:ℚ))]) 1 1 (-9) (le_refl 1) (le_refl 1)⟩

/-- Witness for C7 (amended): a one-point tool cloud. -/
theorem C7_amended_witness :
    (([((0:ℚ),(0:ℚ),(2:ℚ))] : List (ℚ × ℚ × ℚ)) ≠ [] ∧ (0:ℚ) < 1 ∧
      (∀ p ∈ ([((0:ℚ),(0:ℚ),(2:ℚ))] : List (ℚ × ℚ × ℚ)),
        ∀ q ∈ ([((0:ℚ),(0:ℚ),(2:ℚ))] : List (ℚ × ℚ × ℚ)),
        cellX [((0:ℚ),(0:ℚ),(2:ℚ))] 1 p = cellX [((0:ℚ),(0:ℚ),(2:ℚ))] 1 q →
        cellY [((0:ℚ),(0:ℚ),(2:ℚ))] 1 p = cellY [((0:ℚ),(0:ℚ),(2:ℚ))] 1 q →
        p.2.2 = q.2.2)) ∧
    (∃ m st, create_tool_height_map [((0:ℚ),(0:ℚ),(2:ℚ))] 1 = some m ∧
      create_sparse_tool_from_map m = some st ∧
      (0 : ℚ) ∈ st.points.map (fun q => q.2.2) ∧
      ∀ z ∈ st.points.map (fun q => q.2.2), 0 ≤ z) :=
  ⟨⟨by decide, by decide, by decide⟩,
    C7_amended_sparse_tool_tip_zero [((0:ℚ),(0:ℚ),(2:ℚ))] 1
      (by decide) (by decide) (by decide)⟩
